import Mathlib

/-!
# STM8S003 USB OLED fuel gauge (`main.c`): embedding and verified properties

The firmware is a single loop over global variables.  The embedding below
threads one `State` record through Lean functions that carry the names of the
C functions they translate.  Machine integers are `Nat`/`Int` with explicit
reductions modulo `2^16` / `2^32` wherever the C types truncate.

Hardware that the program only reads is an explicit input:

* the ADC data register `ADC1->DR.w` (one 16-bit reading per channel and poll),
* the flash status register `FLASH->IAPSR` as read after the two key writes,
* the elapsed-seconds counter `tick_sec`, advanced by the timer interrupt.

The OLED routines (`oled_*`, `init_oled`, `paint_*`) are output sinks that
touch no variable of the program and are left out of the state.
-/

namespace FuelGauge

/-! ## Constants (`main.c`, lines 43-84) -/

/-- Gain of the voltage channel, `#define K_VOLT 3625UL`. -/
def K_VOLT : Nat := 3625

/-- Offset of the voltage channel, `#define B_VOLT 41`. -/
def B_VOLT : Int := 41

/-- Gain of the current channel, `#define K_AMP 1952UL`. -/
def K_AMP : Nat := 1952

/-- Initial value of the calibration offset, `int32_t B_AMP = -116`. -/
def B_AMP_INIT : Int := -116

def OFFSET_TICK : Nat := 0
def OFFSET_E : Nat := 4
def OFFSET_CAP : Nat := 8
def OFFSET_SETTINGS : Nat := 12
def OFFSET_B_AMP : Nat := 16

def AIN_CH_L : Nat := 3
def AIN_CH_H : Nat := 4

/-- Width of the rectangular window, `#define AIN_SMOOTH 13`. -/
def AIN_SMOOTH : Nat := 13

/-- Under-voltage trip threshold on a raw sample, `#define AIN_UVP_TH 260`. -/
def AIN_UVP_TH : Nat := 260

/-! ## Machine integers -/

/-- Conversion of a signed value to `uint32_t` (value modulo `2^32`). -/
def toU32 (x : Int) : Nat := (x % 4294967296).toNat

/-- Conversion of a 32-bit pattern to `int32_t` (two's complement). -/
def toI32 (u : Nat) : Int :=
  if u % 4294967296 < 2147483648 then ((u % 4294967296 : Nat) : Int)
  else ((u % 4294967296 : Nat) : Int) - 4294967296

/-! ## Program state -/

/-- The global variables of `main.c`, the two function-local variables that
survive between steps (`count` of `poll_adc`, `t_det` of `main`), the data
EEPROM as a map from byte offset to byte, and one ghost counter. -/
structure State where
  /-- Elapsed seconds, `uint32_t`, advanced by the timer interrupt. -/
  tick_sec : Nat
  /-- Energy total in millijoule, `uint32_t e_mj`. -/
  e_mj : Nat
  /-- Charge total in millicoulomb, `uint32_t cap_mc`. -/
  cap_mc : Nat
  /-- Byte `settings[0]`: first OLED orientation command. -/
  settings0 : Nat
  /-- Byte `settings[1]`: second OLED orientation command. -/
  settings1 : Nat
  /-- Byte `settings[2]`, the display mode (`modeDisp`). -/
  settings2 : Nat
  /-- Byte `settings[3]`, reserved. -/
  settings3 : Nat
  /-- Calibration offset of the current channel, `int32_t B_AMP`. -/
  B_AMP : Int
  /-- Accumulator of the voltage channel, `buf_adc[0]`. -/
  buf_adc0 : Nat
  /-- Accumulator of the current channel, `buf_adc[1]`. -/
  buf_adc1 : Nat
  low_voltage_lockout : Bool
  volt_mv : Nat
  amp_ma : Nat
  pwr_mw : Nat
  /-- The `static uint16_t count` of `poll_adc`. -/
  count : Nat
  /-- The local `t_det` of `main`, the second-change detector. -/
  t_det : Nat
  /-- Data EEPROM: byte offset to stored byte. -/
  eeprom : Nat → Nat
  /-- Ghost: how many times the branch adding to `e_mj` and `cap_mc` ran. -/
  acc_events : Nat

/-- Every variable holds a value of its C type. -/
structure State.WF (s : State) : Prop where
  tick_sec : s.tick_sec < 4294967296
  e_mj : s.e_mj < 4294967296
  cap_mc : s.cap_mc < 4294967296
  settings0 : s.settings0 < 256
  settings1 : s.settings1 < 256
  settings2 : s.settings2 < 256
  settings3 : s.settings3 < 256
  B_AMP_lo : -2147483648 ≤ s.B_AMP
  B_AMP_hi : s.B_AMP < 2147483648

/-- State right after reset: C zero-initialisation, `B_AMP = -116`,
`low_voltage_lockout = false`, over a given EEPROM content. -/
def State.boot (e : Nat → Nat) : State :=
  { tick_sec := 0, e_mj := 0, cap_mc := 0,
    settings0 := 0, settings1 := 0, settings2 := 0, settings3 := 0,
    B_AMP := B_AMP_INIT, buf_adc0 := 0, buf_adc1 := 0,
    low_voltage_lockout := false, volt_mv := 0, amp_ma := 0, pwr_mw := 0,
    count := 0, t_det := 0, eeprom := e, acc_events := 0 }

/-! ## Data EEPROM: `memcpy` of four bytes (the STM8 stores the most
significant byte first) -/

/-- Store one byte. -/
def ee_write (e : Nat → Nat) (a v : Nat) : Nat → Nat :=
  fun x => if x = a then v else e x

/-- Four consecutive bytes at `off .. off+3`, written in address order. -/
def ee_write_bytes4 (e : Nat → Nat) (off b0 b1 b2 b3 : Nat) : Nat → Nat :=
  ee_write (ee_write (ee_write (ee_write e off b0) (off + 1) b1) (off + 2) b2) (off + 3) b3

/-- The four bytes of a 32-bit word at `off .. off+3`. -/
def ee_write_word (e : Nat → Nat) (off w : Nat) : Nat → Nat :=
  ee_write_bytes4 e off (w / 16777216 % 256) (w / 65536 % 256) (w / 256 % 256) (w % 256)

/-- The 32-bit word read from the four bytes at `off .. off+3`. -/
def ee_read_word (e : Nat → Nat) (off : Nat) : Nat :=
  e off * 16777216 + e (off + 1) * 65536 + e (off + 2) * 256 + e (off + 3)

/-- The body of `wait_for_eop`: the loop polls the hardware flag EOP and
assigns no variable; the hardware raises EOP when a word has been programmed. -/
def wait_for_eop (s : State) : State := s

/-- The function `save_eeprom` (lines 197-225).  `iapsr` is the value of
`FLASH->IAPSR` read after the two key writes to `FLASH->DUKR`. -/
def save_eeprom (iapsr : Nat) (s : State) : Nat × State :=
  if iapsr &&& 0x08 ≠ 0 then
    let s := wait_for_eop { s with eeprom := ee_write_word s.eeprom OFFSET_TICK s.tick_sec }
    let s := wait_for_eop { s with eeprom := ee_write_word s.eeprom OFFSET_E s.e_mj }
    let s := wait_for_eop { s with eeprom := ee_write_word s.eeprom OFFSET_CAP s.cap_mc }
    let s := wait_for_eop { s with eeprom := (ee_write_bytes4 s.eeprom OFFSET_SETTINGS
      s.settings0 s.settings1 s.settings2 s.settings3) }
    let s := wait_for_eop { s with eeprom := ee_write_word s.eeprom OFFSET_B_AMP (toU32 s.B_AMP) }
    (0, s)
  else
    (1, s)

/-- The function `load_eeprom` (lines 228-236); the final
`oled_write_buf_cmd` only sends `settings[0..1]` to the display. -/
def load_eeprom (s : State) : State :=
  { s with
    tick_sec := ee_read_word s.eeprom OFFSET_TICK
    e_mj := ee_read_word s.eeprom OFFSET_E
    cap_mc := ee_read_word s.eeprom OFFSET_CAP
    settings0 := s.eeprom OFFSET_SETTINGS
    settings1 := s.eeprom (OFFSET_SETTINGS + 1)
    settings2 := s.eeprom (OFFSET_SETTINGS + 2)
    settings3 := s.eeprom (OFFSET_SETTINGS + 3)
    B_AMP := toI32 (ee_read_word s.eeprom OFFSET_B_AMP) }

/-! ## Display mode and orientation (lines 238-272) -/

/-- The function `toggle_orient` (lines 239-248). -/
def toggle_orient (s : State) : State :=
  if 0xa0 = s.settings0 then
    { s with settings0 := 0xa1, settings1 := 0xc8 }
  else
    { s with settings0 := 0xa0, settings1 := 0xc0 }

/-- The function `changeModeBack` (lines 250-260); `modeDisp` is `settings[2]`.
The result of `save_eeprom` is discarded, as in the source. -/
def changeModeBack (iapsr : Nat) (s : State) : State :=
  let s :=
    if s.settings2 > 0 ∧ s.settings2 < 4 then
      { s with settings2 := s.settings2 - 1 }
    else
      toggle_orient { s with settings2 := 3 }
  load_eeprom (save_eeprom iapsr s).2

/-- The function `changeMode` (lines 262-272). -/
def changeMode (iapsr : Nat) (s : State) : State :=
  let s :=
    if s.settings2 < 3 then
      { s with settings2 := (s.settings2 + 1) % 256 }
    else
      toggle_orient { s with settings2 := 0 }
  load_eeprom (save_eeprom iapsr s).2

/-! ## Sampling and the rectangular filter (lines 115-161) -/

/-- What the hardware supplies to one call of `poll_adc`: the data register
after the conversion of channel 3 (`dr0`, voltage) and of channel 4 (`dr1`,
current), and the flash status read by a save made during the call. -/
structure AdcIn where
  dr0 : Nat
  dr1 : Nat
  iapsr : Nat

/-- The reading of loop index `i`. -/
def AdcIn.dr (inp : AdcIn) (i : Nat) : Nat := if i = 0 then inp.dr0 else inp.dr1

/-- Both readings are 16-bit values (`uint16_t t = ADC1->DR.w`). -/
def AdcIn.WF (inp : AdcIn) : Prop := inp.dr0 < 65536 ∧ inp.dr1 < 65536

instance (inp : AdcIn) : Decidable inp.WF := by unfold AdcIn.WF; infer_instance

/-- Read of `buf_adc[i]`. -/
def State.buf_adc (s : State) (i : Nat) : Nat := if i = 0 then s.buf_adc0 else s.buf_adc1

/-- Assignment to `buf_adc[i]`. -/
def State.set_buf_adc (s : State) (i v : Nat) : State :=
  if i = 0 then { s with buf_adc0 := v } else { s with buf_adc1 := v }

/-- One pass of the `for` loop of `poll_adc` (lines 123-153), rectangular
window (`USE_IIR` undefined). -/
def poll_adc_body (inp : AdcIn) (i : Nat) (s : State) : State :=
  let s := if 0 = s.count then s.set_buf_adc i 0 else s
  let t := inp.dr i
  let s := s.set_buf_adc i ((s.buf_adc i + t) % 4294967296)
  if i = 0 ∧ t < AIN_UVP_TH ∧ ¬ s.low_voltage_lockout = true then
    let s := (save_eeprom inp.iapsr s).2
    { s with low_voltage_lockout := true }
  else
    s

/-- The function `poll_adc` (lines 115-161): the loop runs for `i = 0, 1`
(`AIN_CH_H - AIN_CH_L = 1`), then the cycle counter advances. -/
def poll_adc (inp : AdcIn) (s : State) : Nat × State :=
  let s := poll_adc_body inp 0 s
  let s := poll_adc_body inp 1 s
  let s := { s with count := (s.count + 1) % 65536 }
  let r := (s.count >>> AIN_SMOOTH) % 256
  if r ≠ 0 then (r, { s with count := 0 }) else (r, s)

/-- Successive calls of `poll_adc`, one per hardware reading: the value
returned by the last call (0 before any call) and the state it leaves. -/
def poll_run (ins : List AdcIn) (s : State) : Nat × State :=
  ins.foldl (fun p inp => poll_adc inp p.2) (0, s)

/-! ## Scaling, clamp and integration in `main` (lines 505-534) -/

/-- The value of `((K_VOLT * (buf_adc[0]>>(AIN_SMOOTH-7))) >> (7 + 8)) + B_VOLT`
in 32-bit unsigned arithmetic. -/
def scale_volt (raw : Nat) : Nat :=
  ((((K_VOLT * (raw >>> (AIN_SMOOTH - 7))) % 4294967296) >>> (7 + 8)) + toU32 B_VOLT) % 4294967296

/-- The value of `((K_AMP * (buf_adc[1]>>(AIN_SMOOTH-7))) >> (7 + 8)) + B_AMP`
in 32-bit unsigned arithmetic (`B_AMP` is converted to `unsigned long`). -/
def scale_amp (raw : Nat) (b_amp : Int) : Nat :=
  ((((K_AMP * (raw >>> (AIN_SMOOTH - 7))) % 4294967296) >>> (7 + 8)) + toU32 b_amp) % 4294967296

/-- The clamp of lines 519-521 on the 16-bit `amp_ma`. -/
def clamp_amp (amp_ma : Nat) : Nat :=
  if amp_ma ≤ 0 ∨ amp_ma ≥ 0x8000 then 0 else amp_ma

/-- The current shown for an accumulator value: scaling, the store into the
16-bit `amp_ma`, then the clamp. -/
def amp_reading (raw : Nat) (b_amp : Int) : Nat :=
  clamp_amp (scale_amp raw b_amp % 65536)

/-- The body of `if(poll_adc()){ ... }` in `main` up to the integration
(lines 507-534); painting is left out. -/
def main_window (s : State) : State :=
  let volt_mv := scale_volt s.buf_adc0 % 65536
  let amp_ma := scale_amp s.buf_adc1 s.B_AMP % 65536
  let lockout :=
    if volt_mv > 4200 ∧ s.low_voltage_lockout = true then false else s.low_voltage_lockout
  let amp_ma := clamp_amp amp_ma
  let pwr_mw := ((volt_mv * amp_ma) % 4294967296 / 1000) % 65536
  let reg_tick := s.tick_sec
  let s := { s with volt_mv := volt_mv, amp_ma := amp_ma, pwr_mw := pwr_mw,
                    low_voltage_lockout := lockout }
  if s.t_det ≠ reg_tick &&& 0xff then
    { s with t_det := reg_tick &&& 0xff
             e_mj := (s.e_mj + pwr_mw) % 4294967296
             cap_mc := (s.cap_mc + amp_ma) % 4294967296
             acc_events := s.acc_events + 1 }
  else
    s

/-- The timer interrupt leaves `v` in `tick_sec`. -/
def set_tick (v : Nat) (s : State) : State := { s with tick_sec := v }

/-- Completed windows in a row: before each one `tick_sec` holds the next
value of the list. -/
def run_windows : List Nat → State → State
  | [], s => s
  | v :: rest, s => run_windows rest (main_window (set_tick v s))

/-- A pending button event, after `BTN_EVENT` is cleared (lines 557-576). -/
inductive Button where
  | none
  | hold
  | down
  | up
  deriving DecidableEq, Repr

/-- The button part of the loop of `main` (lines 557-576).  The sub-second
counter `tick_2ms` belongs to the timer module and is not in the state. -/
def main_button (b : Button) (iapsr : Nat) (s : State) : State :=
  match b with
  | Button.hold => changeModeBack iapsr { s with tick_sec := 0, e_mj := 0, cap_mc := 0 }
  | Button.down => changeMode iapsr s
  | Button.up => s
  | Button.none => s

/-- One pass of `while(1)` in `main` (lines 504-577). -/
def main_iter (inp : AdcIn) (b : Button) (iapsr : Nat) (s : State) : State :=
  let p := poll_adc inp s
  let s := if p.1 ≠ 0 then main_window p.2 else p.2
  main_button b iapsr s

/-! ## Zero calibration of the current channel (lines 438-475) -/

/-- Reduction of a signed result to `int32_t`. -/
def wrapI32 (x : Int) : Int := toI32 (toU32 x)

/-- The loop `while(!poll_adc()){}`: one hardware reading per call, until a
call returns non-zero; `none` when the readings run out first. -/
def wait_window : List AdcIn → State → Option (List AdcIn × State)
  | [], _ => none
  | inp :: rest, s =>
    let p := poll_adc inp s
    if p.1 ≠ 0 then some (rest, p.2) else wait_window rest p.2

/-- The candidate `-((K_AMP * (buf_adc[1]>>(AIN_SMOOTH-7))) >> (7 + 8))`:
the negation is unsigned 32-bit, the result is stored in `int32_t cal_a`. -/
def cal_candidate (raw : Nat) : Int :=
  toI32 ((4294967296 -
    (((K_AMP * (raw >>> (AIN_SMOOTH - 7))) % 4294967296) >>> (7 + 8))) % 4294967296)

/-- The `for` loop of `calibrate_a` (lines 447-457), `n` passes to go;
`cal_a1` is the previous candidate and `cal_a` the latest. -/
def calibrate_loop : Nat → List AdcIn → Int → Int → State →
    Option (List AdcIn × Int × Int × State)
  | 0, ins, cal_a1, cal_a, s => some (ins, cal_a1, cal_a, s)
  | n + 1, ins, _, cal_a, s =>
    match wait_window ins s with
    | none => none
    | some (rest, s) => calibrate_loop n rest cal_a (cal_candidate s.buf_adc1) s

/-- Modelled from the spec: `abs` is declared in a header outside the sources
(`common.h` / `util.h`); the spec calls its result "the absolute difference
between the last two candidates". -/
def abs (x : Int) : Int := if x < 0 then -x else x

/-- The decision of `calibrate_a` (lines 459-473) on the last two candidates. -/
def calibrate_accept (iapsr : Nat) (cal_a1 cal_a : Int) (s : State) : State :=
  if cal_a < 200 ∧ abs (wrapI32 (cal_a - cal_a1)) < 10 then
    let s := { s with B_AMP := Int.tdiv (wrapI32 (cal_a + cal_a1)) 2 }
    load_eeprom (save_eeprom iapsr s).2
  else
    s

/-- The function `calibrate_a` (lines 438-475).  `cal_a1` is not initialised
in the source and is assigned in the first pass of the loop; it starts at 0
here.  `iapsr` is the flash status read by the save after an acceptance. -/
def calibrate_a (ins : List AdcIn) (iapsr : Nat) (s : State) : Option (List AdcIn × State) :=
  match calibrate_loop 4 ins 0 s.B_AMP s with
  | none => none
  | some (rest, cal_a1, cal_a, s) => some (rest, calibrate_accept iapsr cal_a1 cal_a s)

/-! ## Quantities and inputs used to state the properties -/

/-- A state in mid-operation: one hour of run time, non-zero totals, the
rotated orientation, display mode 2 and a never-written EEPROM (all `0xff`). -/
def sample_state : State :=
  { State.boot (fun _ => 0xff) with
    tick_sec := 3661, e_mj := 123456, cap_mc := 7890,
    settings0 := 0xa1, settings1 := 0xc8, settings2 := 2, settings3 := 0 }

/-- The number of distinct values observed in order: the first value of the
list and every later value that differs from the one before it. -/
def distinct_in_order : List Nat → Nat
  | [] => 0
  | [_] => 1
  | a :: b :: rest => (if a = b then 0 else 1) + distinct_in_order (b :: rest)

/-- The low 8 bits of each observed value of `tick_sec`. -/
def low_bytes (seq : List Nat) : List Nat := seq.map (fun v => v % 256)

/-- The pre-clamp scaled result `((K_AMP * (raw >> 6)) >> 15) + B_AMP` as an
integer, without the reductions of the machine types. -/
def amp_preclamp (raw : Nat) (b_amp : Int) : Int :=
  (((K_AMP * (raw >>> (AIN_SMOOTH - 7))) >>> (7 + 8) : Nat) : Int) + b_amp

/-- What the environment supplies to one pass of the main loop: the seconds
the timer interrupt added since the previous pass, the ADC readings, the
pending button event and the flash status read by a save made in the button
part. -/
structure LoopIn where
  ticks : Nat
  adc : AdcIn
  btn : Button
  iapsr : Nat

/-- The timer interrupt advances `tick_sec` by `n` seconds. -/
def tick_isr (n : Nat) (s : State) : State :=
  { s with tick_sec := (s.tick_sec + n) % 4294967296 }

/-- One pass of the main loop after the interrupts that preceded it. -/
def main_step (x : LoopIn) (s : State) : State :=
  main_iter x.adc x.btn x.iapsr (tick_isr x.ticks s)

/-- Successive passes of the main loop. -/
def main_run : List LoopIn → State → State
  | [], s => s
  | x :: rest, s => main_run rest (main_step x s)

/-- Every window completed during the run left `volt_mv ≤ 4200`. -/
def windows_low : List LoopIn → State → Bool
  | [], _ => true
  | x :: rest, s =>
    (decide ((poll_adc x.adc (tick_isr x.ticks s)).1 = 0) ||
      decide ((main_step x s).volt_mv ≤ 4200)) && windows_low rest (main_step x s)

/-- A state one poll before the end of a window, locked out, whose voltage
accumulator holds 2406400 after 8191 samples (just under 4.2 V). -/
def locked_state : State :=
  { State.boot (fun _ => 0) with
    count := 8191, low_voltage_lockout := true, buf_adc0 := 2406400, buf_adc1 := 0 }

/-- A pass whose voltage sample 250 ends the window of `locked_state` at
`volt_mv = 4200`. -/
def pass_low : LoopIn :=
  { ticks := 0, adc := { dr0 := 250, dr1 := 0, iapsr := 0x08 }, btn := Button.none, iapsr := 0 }

/-- A pass whose voltage sample 400 ends the window of `locked_state` at
`volt_mv = 4201`. -/
def pass_high : LoopIn :=
  { ticks := 0, adc := { dr0 := 400, dr1 := 0, iapsr := 0x08 }, btn := Button.none, iapsr := 0 }

/-- The readings of the current cycle: of all the readings polled since the
counter was 0, those since the last cycle boundary (a boundary lies after
every `2^13` readings); the last call's reading is always among them. -/
def cycle_samples (ins : List AdcIn) : List AdcIn :=
  ins.drop (ins.length - ((ins.length - 1) % 8192 + 1))

/-- One full window of identical readings: voltage sample 300, current sample
5, store unlocked. -/
def full_window : List AdcIn :=
  List.replicate 8192 { dr0 := 300, dr1 := 5, iapsr := 0x08 }

/-- A completed window at the top of the advertised range ("4~14V, 0~5A" in
`paint_intro`): accumulators that scale to 14000 mV and 5000 mA with the
initial offset.  Both are sums of 8192 ten-bit samples. -/
def full_load_state : State :=
  { State.boot (fun _ => 0) with buf_adc0 := 8075776, buf_adc1 := 5496448 }

/-- The window of `full_load_state` one second after the last integration. -/
def integrating_state : State := { full_load_state with tick_sec := 1 }

/-- The same window with both totals at the largest 32-bit value. -/
def saturated_state : State :=
  { integrating_state with e_mj := 4294967295, cap_mc := 4294967295 }

/-- One pass of the `for` loop of `poll_adc` together with the number of calls
of `save_eeprom` it makes: the code of `poll_adc_body` with the call of line
145 counted. -/
def poll_adc_body_counted (inp : AdcIn) (i : Nat) (s : State) : State × Nat :=
  let s := if 0 = s.count then s.set_buf_adc i 0 else s
  let t := inp.dr i
  let s := s.set_buf_adc i ((s.buf_adc i + t) % 4294967296)
  if i = 0 ∧ t < AIN_UVP_TH ∧ ¬ s.low_voltage_lockout = true then
    let s := (save_eeprom inp.iapsr s).2
    ({ s with low_voltage_lockout := true }, 1)
  else
    (s, 0)

/-- The function `poll_adc` with the calls of `save_eeprom` counted: return
value, state, number of calls. -/
def poll_adc_counted (inp : AdcIn) (s : State) : Nat × State × Nat :=
  let p0 := poll_adc_body_counted inp 0 s
  let p1 := poll_adc_body_counted inp 1 p0.1
  let s := { p1.1 with count := (p1.1.count + 1) % 65536 }
  let r := (s.count >>> AIN_SMOOTH) % 256
  if r ≠ 0 then (r, { s with count := 0 }, p0.2 + p1.2) else (r, s, p0.2 + p1.2)

/-- The scaler as the specification words it: the raw value shifted right by
`(width - 8)`, multiplied by the gain `k`, shifted right by `left_shift`, and
the offset `b` added. -/
def scale_spec (k : Nat) (b : Int) (left_shift raw : Nat) : Int :=
  (((k * (raw >>> (AIN_SMOOTH - 8))) >>> left_shift : Nat) : Int) + b

/-- The persisted variables hold the values stored in the EEPROM: the three
counters and `B_AMP` as the 32-bit words at their offsets, the settings block
as the four bytes at its offset. -/
def State.persisted (s : State) : Prop :=
  s.tick_sec = ee_read_word s.eeprom OFFSET_TICK ∧
  s.e_mj = ee_read_word s.eeprom OFFSET_E ∧
  s.cap_mc = ee_read_word s.eeprom OFFSET_CAP ∧
  s.settings0 = s.eeprom OFFSET_SETTINGS ∧
  s.settings1 = s.eeprom (OFFSET_SETTINGS + 1) ∧
  s.settings2 = s.eeprom (OFFSET_SETTINGS + 2) ∧
  s.settings3 = s.eeprom (OFFSET_SETTINGS + 3) ∧
  s.B_AMP = toI32 (ee_read_word s.eeprom OFFSET_B_AMP)

instance (s : State) : Decidable s.persisted := by
  unfold State.persisted
  infer_instance

/-- The state after the first `k` windows (`8192 * k` readings) of `ins`. -/
def after_windows (k : Nat) (ins : List AdcIn) (s : State) : State :=
  (poll_run (ins.take (8192 * k)) s).2

/-- Four windows of identical readings, as polled during a calibration. -/
def calibration_readings : List AdcIn :=
  List.replicate 32768 { dr0 := 300, dr1 := 5, iapsr := 0x08 }

/-! # Verified properties -/

/-! ## Machine integers and EEPROM access -/

theorem toI32_toU32 (x : Int) (hlo : -2147483648 ≤ x) (hhi : x < 2147483648) :
    toI32 (toU32 x) = x := by
  unfold toI32 toU32
  split_ifs with h <;> omega

theorem toU32_lt (x : Int) : toU32 x < 4294967296 := by
  unfold toU32; omega


theorem ee_write_bytes4_other (e : Nat → Nat) (off b0 b1 b2 b3 x : Nat)
    (h : x < off ∨ off + 4 ≤ x) : ee_write_bytes4 e off b0 b1 b2 b3 x = e x := by
  have h0 : x ≠ off := by omega
  have h1 : x ≠ off + 1 := by omega
  have h2 : x ≠ off + 2 := by omega
  have h3 : x ≠ off + 3 := by omega
  simp only [ee_write_bytes4, ee_write, if_neg h0, if_neg h1, if_neg h2, if_neg h3]

theorem ee_write_bytes4_at (e : Nat → Nat) (off b0 b1 b2 b3 : Nat) :
    ee_write_bytes4 e off b0 b1 b2 b3 off = b0 ∧
    ee_write_bytes4 e off b0 b1 b2 b3 (off + 1) = b1 ∧
    ee_write_bytes4 e off b0 b1 b2 b3 (off + 2) = b2 ∧
    ee_write_bytes4 e off b0 b1 b2 b3 (off + 3) = b3 := by
  simp [ee_write_bytes4, ee_write]

theorem ee_read_bytes4_other (e : Nat → Nat) (off off2 b0 b1 b2 b3 : Nat)
    (h : off2 + 4 ≤ off ∨ off + 4 ≤ off2) :
    ee_read_word (ee_write_bytes4 e off b0 b1 b2 b3) off2 = ee_read_word e off2 := by
  unfold ee_read_word
  rw [ee_write_bytes4_other e off b0 b1 b2 b3 off2 (by omega),
    ee_write_bytes4_other e off b0 b1 b2 b3 (off2 + 1) (by omega),
    ee_write_bytes4_other e off b0 b1 b2 b3 (off2 + 2) (by omega),
    ee_write_bytes4_other e off b0 b1 b2 b3 (off2 + 3) (by omega)]

theorem ee_read_write_word (e : Nat → Nat) (off w : Nat) :
    ee_read_word (ee_write_word e off w) off = w % 4294967296 := by
  unfold ee_read_word ee_write_word
  obtain ⟨h0, h1, h2, h3⟩ := ee_write_bytes4_at e off
    (w / 16777216 % 256) (w / 65536 % 256) (w / 256 % 256) (w % 256)
  rw [h0, h1, h2, h3]
  omega

theorem ee_read_write_word_other (e : Nat → Nat) (off off2 w : Nat)
    (h : off2 + 4 ≤ off ∨ off + 4 ≤ off2) :
    ee_read_word (ee_write_word e off w) off2 = ee_read_word e off2 := by
  unfold ee_write_word
  exact ee_read_bytes4_other e off off2 _ _ _ _ h

theorem ee_write_word_other (e : Nat → Nat) (off w x : Nat)
    (h : x < off ∨ off + 4 ≤ x) : ee_write_word e off w x = e x := by
  unfold ee_write_word
  exact ee_write_bytes4_other e off _ _ _ _ x h

theorem save_eeprom_unlocked (iapsr : Nat) (s : State) (h : iapsr &&& 0x08 ≠ 0) :
    save_eeprom iapsr s = (0, { s with eeprom :=
      (ee_write_word (ee_write_bytes4 (ee_write_word (ee_write_word
        (ee_write_word s.eeprom OFFSET_TICK s.tick_sec) OFFSET_E s.e_mj) OFFSET_CAP s.cap_mc)
        OFFSET_SETTINGS s.settings0 s.settings1 s.settings2 s.settings3)
        OFFSET_B_AMP (toU32 s.B_AMP)) }) := by
  unfold save_eeprom
  rw [if_pos h]
  simp only [wait_for_eop]

theorem save_eeprom_locked (iapsr : Nat) (s : State) (h : iapsr &&& 0x08 = 0) :
    save_eeprom iapsr s = (1, s) := by
  unfold save_eeprom
  rw [if_neg (not_not.mpr h)]



/-! ## Persistence (claims C1, C2) -/

/-- C1. Persistence round trip: for every well-typed in-memory state and every
prior EEPROM content, when the store unlocks, `save_eeprom` followed by
`load_eeprom` leaves `tick_sec`, `e_mj`, `cap_mc`, the four settings bytes and
`B_AMP` exactly as they were before the save. -/
theorem save_load_roundtrip (s : State) (iapsr : Nat) (hwf : s.WF)
    (hunlock : iapsr &&& 0x08 ≠ 0) :
    (load_eeprom (save_eeprom iapsr s).2).tick_sec = s.tick_sec ∧
    (load_eeprom (save_eeprom iapsr s).2).e_mj = s.e_mj ∧
    (load_eeprom (save_eeprom iapsr s).2).cap_mc = s.cap_mc ∧
    (load_eeprom (save_eeprom iapsr s).2).settings0 = s.settings0 ∧
    (load_eeprom (save_eeprom iapsr s).2).settings1 = s.settings1 ∧
    (load_eeprom (save_eeprom iapsr s).2).settings2 = s.settings2 ∧
    (load_eeprom (save_eeprom iapsr s).2).settings3 = s.settings3 ∧
    (load_eeprom (save_eeprom iapsr s).2).B_AMP = s.B_AMP := by
  obtain ⟨h1, h2, h3, h4, h5, h6, h7, h8, h9⟩ := hwf
  have hb := toU32_lt s.B_AMP
  have hB := toI32_toU32 s.B_AMP h8 h9
  rw [save_eeprom_unlocked iapsr s hunlock]
  simp only [load_eeprom, OFFSET_TICK, OFFSET_E, OFFSET_CAP, OFFSET_SETTINGS, OFFSET_B_AMP]
  refine ⟨?_, ?_, ?_, ?_, ?_, ?_, ?_, ?_⟩
  · rw [ee_read_write_word_other _ _ _ _ (by omega), ee_read_bytes4_other _ _ _ _ _ _ _ (by omega),
      ee_read_write_word_other _ _ _ _ (by omega), ee_read_write_word_other _ _ _ _ (by omega),
      ee_read_write_word]
    omega
  · rw [ee_read_write_word_other _ _ _ _ (by omega), ee_read_bytes4_other _ _ _ _ _ _ _ (by omega),
      ee_read_write_word_other _ _ _ _ (by omega), ee_read_write_word]
    omega
  · rw [ee_read_write_word_other _ _ _ _ (by omega), ee_read_bytes4_other _ _ _ _ _ _ _ (by omega),
      ee_read_write_word]
    omega
  · rw [ee_write_word_other _ _ _ _ (by omega)]
    exact (ee_write_bytes4_at _ 12 _ _ _ _).1
  · rw [ee_write_word_other _ _ _ _ (by omega)]
    exact (ee_write_bytes4_at _ 12 _ _ _ _).2.1
  · rw [ee_write_word_other _ _ _ _ (by omega)]
    exact (ee_write_bytes4_at _ 12 _ _ _ _).2.2.1
  · rw [ee_write_word_other _ _ _ _ (by omega)]
    exact (ee_write_bytes4_at _ 12 _ _ _ _).2.2.2
  · rw [ee_read_write_word, Nat.mod_eq_of_lt hb]
    exact hB

theorem sample_state_wf : sample_state.WF :=
  ⟨by decide, by decide, by decide, by decide, by decide, by decide, by decide,
    by decide, by decide⟩

/-- Witness for C1: the round trip at `sample_state` with the unlock flag set,
over an EEPROM that held `0xff` everywhere. -/
theorem save_load_roundtrip_witness :
    sample_state.WF ∧ (0x08 &&& 0x08 ≠ 0) ∧
    (load_eeprom (save_eeprom 0x08 sample_state).2).tick_sec = 3661 ∧
    (load_eeprom (save_eeprom 0x08 sample_state).2).e_mj = 123456 ∧
    (load_eeprom (save_eeprom 0x08 sample_state).2).cap_mc = 7890 ∧
    (load_eeprom (save_eeprom 0x08 sample_state).2).settings0 = 0xa1 ∧
    (load_eeprom (save_eeprom 0x08 sample_state).2).settings1 = 0xc8 ∧
    (load_eeprom (save_eeprom 0x08 sample_state).2).settings2 = 2 ∧
    (load_eeprom (save_eeprom 0x08 sample_state).2).settings3 = 0 ∧
    (load_eeprom (save_eeprom 0x08 sample_state).2).B_AMP = -116 :=
  ⟨sample_state_wf, by decide,
    save_load_roundtrip sample_state 0x08 sample_state_wf (by decide)⟩

/-- A save changes no variable of the program, only the EEPROM. -/
theorem save_eeprom_vars (iapsr : Nat) (s : State) :
    (save_eeprom iapsr s).2 = { s with eeprom := (save_eeprom iapsr s).2.eeprom } := by
  by_cases h : iapsr &&& 0x08 = 0
  · rw [save_eeprom_locked iapsr s h]
  · rw [save_eeprom_unlocked iapsr s h]

@[simp] theorem save_eeprom_tick_sec (iapsr : Nat) (s : State) :
    (save_eeprom iapsr s).2.tick_sec = s.tick_sec := by
  rw [save_eeprom_vars]

@[simp] theorem save_eeprom_e_mj (iapsr : Nat) (s : State) :
    (save_eeprom iapsr s).2.e_mj = s.e_mj := by
  rw [save_eeprom_vars]

@[simp] theorem save_eeprom_cap_mc (iapsr : Nat) (s : State) :
    (save_eeprom iapsr s).2.cap_mc = s.cap_mc := by
  rw [save_eeprom_vars]

@[simp] theorem save_eeprom_settings0 (iapsr : Nat) (s : State) :
    (save_eeprom iapsr s).2.settings0 = s.settings0 := by
  rw [save_eeprom_vars]

@[simp] theorem save_eeprom_settings1 (iapsr : Nat) (s : State) :
    (save_eeprom iapsr s).2.settings1 = s.settings1 := by
  rw [save_eeprom_vars]

@[simp] theorem save_eeprom_settings2 (iapsr : Nat) (s : State) :
    (save_eeprom iapsr s).2.settings2 = s.settings2 := by
  rw [save_eeprom_vars]

@[simp] theorem save_eeprom_settings3 (iapsr : Nat) (s : State) :
    (save_eeprom iapsr s).2.settings3 = s.settings3 := by
  rw [save_eeprom_vars]

@[simp] theorem save_eeprom_B_AMP (iapsr : Nat) (s : State) :
    (save_eeprom iapsr s).2.B_AMP = s.B_AMP := by
  rw [save_eeprom_vars]

@[simp] theorem save_eeprom_buf_adc0 (iapsr : Nat) (s : State) :
    (save_eeprom iapsr s).2.buf_adc0 = s.buf_adc0 := by
  rw [save_eeprom_vars]

@[simp] theorem save_eeprom_buf_adc1 (iapsr : Nat) (s : State) :
    (save_eeprom iapsr s).2.buf_adc1 = s.buf_adc1 := by
  rw [save_eeprom_vars]

@[simp] theorem save_eeprom_low_voltage_lockout (iapsr : Nat) (s : State) :
    (save_eeprom iapsr s).2.low_voltage_lockout = s.low_voltage_lockout := by
  rw [save_eeprom_vars]

@[simp] theorem save_eeprom_volt_mv (iapsr : Nat) (s : State) :
    (save_eeprom iapsr s).2.volt_mv = s.volt_mv := by
  rw [save_eeprom_vars]

@[simp] theorem save_eeprom_amp_ma (iapsr : Nat) (s : State) :
    (save_eeprom iapsr s).2.amp_ma = s.amp_ma := by
  rw [save_eeprom_vars]

@[simp] theorem save_eeprom_pwr_mw (iapsr : Nat) (s : State) :
    (save_eeprom iapsr s).2.pwr_mw = s.pwr_mw := by
  rw [save_eeprom_vars]

@[simp] theorem save_eeprom_count (iapsr : Nat) (s : State) :
    (save_eeprom iapsr s).2.count = s.count := by
  rw [save_eeprom_vars]

@[simp] theorem save_eeprom_t_det (iapsr : Nat) (s : State) :
    (save_eeprom iapsr s).2.t_det = s.t_det := by
  rw [save_eeprom_vars]

@[simp] theorem save_eeprom_acc_events (iapsr : Nat) (s : State) :
    (save_eeprom iapsr s).2.acc_events = s.acc_events := by
  rw [save_eeprom_vars]


/-- C2. `save_eeprom` returns non-zero exactly when the unlock flag (bit 3 of
`FLASH->IAPSR`) is clear after the two key writes, and then nothing is changed;
it returns 0 exactly when the flag is set, and then each of the five stored
fields holds the value of its variable. -/
theorem save_eeprom_result (iapsr : Nat) (s : State) :
    ((save_eeprom iapsr s).1 ≠ 0 ↔ iapsr &&& 0x08 = 0) ∧
    ((save_eeprom iapsr s).1 = 0 ↔ iapsr &&& 0x08 ≠ 0) ∧
    (iapsr &&& 0x08 = 0 → (save_eeprom iapsr s).2 = s) ∧
    (iapsr &&& 0x08 ≠ 0 →
      ee_read_word (save_eeprom iapsr s).2.eeprom OFFSET_TICK = s.tick_sec % 4294967296 ∧
      ee_read_word (save_eeprom iapsr s).2.eeprom OFFSET_E = s.e_mj % 4294967296 ∧
      ee_read_word (save_eeprom iapsr s).2.eeprom OFFSET_CAP = s.cap_mc % 4294967296 ∧
      (save_eeprom iapsr s).2.eeprom OFFSET_SETTINGS = s.settings0 ∧
      (save_eeprom iapsr s).2.eeprom (OFFSET_SETTINGS + 1) = s.settings1 ∧
      (save_eeprom iapsr s).2.eeprom (OFFSET_SETTINGS + 2) = s.settings2 ∧
      (save_eeprom iapsr s).2.eeprom (OFFSET_SETTINGS + 3) = s.settings3 ∧
      ee_read_word (save_eeprom iapsr s).2.eeprom OFFSET_B_AMP = toU32 s.B_AMP) := by
  by_cases h : iapsr &&& 0x08 = 0
  · rw [save_eeprom_locked iapsr s h]
    simp [h]
  · rw [save_eeprom_unlocked iapsr s h]
    refine ⟨by simp [h], by simp [h], fun h0 => absurd h0 h, fun _ => ?_⟩
    simp only [OFFSET_TICK, OFFSET_E, OFFSET_CAP, OFFSET_SETTINGS, OFFSET_B_AMP]
    refine ⟨?_, ?_, ?_, ?_, ?_, ?_, ?_, ?_⟩
    · rw [ee_read_write_word_other _ _ _ _ (by omega),
        ee_read_bytes4_other _ _ _ _ _ _ _ (by omega),
        ee_read_write_word_other _ _ _ _ (by omega),
        ee_read_write_word_other _ _ _ _ (by omega), ee_read_write_word]
    · rw [ee_read_write_word_other _ _ _ _ (by omega),
        ee_read_bytes4_other _ _ _ _ _ _ _ (by omega),
        ee_read_write_word_other _ _ _ _ (by omega), ee_read_write_word]
    · rw [ee_read_write_word_other _ _ _ _ (by omega),
        ee_read_bytes4_other _ _ _ _ _ _ _ (by omega), ee_read_write_word]
    · rw [ee_write_word_other _ _ _ _ (by omega)]
      exact (ee_write_bytes4_at _ 12 _ _ _ _).1
    · rw [ee_write_word_other _ _ _ _ (by omega)]
      exact (ee_write_bytes4_at _ 12 _ _ _ _).2.1
    · rw [ee_write_word_other _ _ _ _ (by omega)]
      exact (ee_write_bytes4_at _ 12 _ _ _ _).2.2.1
    · rw [ee_write_word_other _ _ _ _ (by omega)]
      exact (ee_write_bytes4_at _ 12 _ _ _ _).2.2.2
    · rw [ee_read_write_word, Nat.mod_eq_of_lt (toU32_lt _)]

/-- Witness for C2: at `sample_state` a clear flag gives return value 1 and an
untouched state, a set flag gives 0 and the stored elapsed seconds. -/
theorem save_eeprom_result_witness :
    (save_eeprom 0x00 sample_state).1 ≠ 0 ∧
    (save_eeprom 0x00 sample_state).2 = sample_state ∧
    (save_eeprom 0x08 sample_state).1 = 0 ∧
    ee_read_word (save_eeprom 0x08 sample_state).2.eeprom OFFSET_TICK = 3661 :=
  ⟨(save_eeprom_result 0x00 sample_state).1.mpr (by decide),
    (save_eeprom_result 0x00 sample_state).2.2.1 (by decide),
    (save_eeprom_result 0x08 sample_state).2.1.mpr (by decide),
    ((save_eeprom_result 0x08 sample_state).2.2.2 (by decide)).1⟩

/-! ## The integrator (claim C3) -/

theorem and_0xff (x : Nat) : x &&& 0xff = x % 256 :=
  Nat.and_pow_two_sub_one_eq_mod x 8

theorem main_window_t_det (s : State) : (main_window s).t_det = s.tick_sec % 256 := by
  unfold main_window
  simp only [and_0xff]
  by_cases h : s.t_det = s.tick_sec % 256
  · simp [h]
  · simp [h]

theorem main_window_acc_events (s : State) :
    (main_window s).acc_events =
      s.acc_events + (if s.t_det = s.tick_sec % 256 then 0 else 1) := by
  unfold main_window
  simp only [and_0xff]
  by_cases h : s.t_det = s.tick_sec % 256
  · simp [h]
  · simp [h]

theorem distinct_in_order_cons_pos (a : Nat) (l : List Nat) :
    1 ≤ distinct_in_order (a :: l) := by
  induction l generalizing a with
  | nil => simp [distinct_in_order]
  | cons b rest ih =>
    have := ih b
    simp only [distinct_in_order]
    omega

/-- The events of a run, counted from the detector value of the start state. -/
theorem run_windows_acc_events (seq : List Nat) (s : State) :
    (run_windows seq s).acc_events + 1 =
      s.acc_events + distinct_in_order (s.t_det :: low_bytes seq) := by
  induction seq generalizing s with
  | nil => simp [run_windows, low_bytes, distinct_in_order]
  | cons v rest ih =>
    have h := ih (main_window (set_tick v s))
    rw [main_window_t_det, main_window_acc_events] at h
    have e1 : (set_tick v s).tick_sec = v := rfl
    have e2 : (set_tick v s).t_det = s.t_det := rfl
    have e3 : (set_tick v s).acc_events = s.acc_events := rfl
    rw [e1, e2, e3] at h
    simp only [run_windows, low_bytes, List.map_cons, distinct_in_order] at h ⊢
    by_cases hv : s.t_det = v % 256
    · simp only [hv, if_true] at h ⊢
      omega
    · simp only [hv, if_false] at h ⊢
      omega

/-- C3 (as amended). Started with the detector `t_det` at its initial value 0,
the number of accumulation events over a sequence of observed seconds values
is the number of positions whose low byte differs from the low byte before it,
the first position being compared with 0: one less than the number of
distinct values in order of `0 :: lows`.  It equals the number of distinct low
bytes in order when the first low byte is not 0, and the sequence
`[5,5,5,6,6,7]` gives exactly 3 events. -/
theorem integrator_event_count (seq : List Nat) (s : State) (h0 : s.t_det = 0) :
    (run_windows seq s).acc_events =
      s.acc_events + (distinct_in_order (0 :: low_bytes seq) - 1) ∧
    (∀ v rest, seq = v :: rest → v % 256 ≠ 0 →
      (run_windows seq s).acc_events = s.acc_events + distinct_in_order (low_bytes seq)) ∧
    (run_windows [5, 5, 5, 6, 6, 7] s).acc_events = s.acc_events + 3 := by
  have key := fun l => run_windows_acc_events l s
  rw [h0] at key
  refine ⟨?_, ?_, ?_⟩
  · have h1 := key seq
    have h2 := distinct_in_order_cons_pos 0 (low_bytes seq)
    omega
  · intro v rest hseq hv
    have h1 := key seq
    subst hseq
    simp only [low_bytes, List.map_cons, distinct_in_order] at h1 ⊢
    rw [if_neg (fun h => hv h.symm)] at h1
    omega
  · have h1 := key [5, 5, 5, 6, 6, 7]
    have h2 : distinct_in_order (0 :: low_bytes [5, 5, 5, 6, 6, 7]) = 4 := by decide
    omega

/-- Witness for C3: from the reset state the sequence `[5,5,5,6,6,7]` gives 3
accumulation events. -/
theorem integrator_event_count_witness :
    (State.boot (fun _ => 0)).t_det = 0 ∧
    (run_windows [5, 5, 5, 6, 6, 7] (State.boot (fun _ => 0))).acc_events = 0 + 3 :=
  ⟨rfl, (integrator_event_count [5, 5, 5, 6, 6, 7] (State.boot (fun _ => 0)) rfl).2.2⟩

/-- Counterexample for C3 as stated: the observed values `[0, 1]` have two
distinct low bytes in order, but the detector starts at 0, so the first window
adds nothing and only one accumulation event occurs. -/
theorem integrator_event_count_counterexample :
    distinct_in_order (low_bytes [0, 1]) = 2 ∧
    (run_windows [0, 1] (State.boot (fun _ => 0))).acc_events = 1 := by
  refine ⟨by decide, ?_⟩
  have h := run_windows_acc_events [0, 1] (State.boot (fun _ => 0))
  have h2 : distinct_in_order ((State.boot (fun _ => 0)).t_det :: low_bytes [0, 1]) = 2 := by
    decide
  have h3 : (State.boot (fun _ => 0)).acc_events = 0 := rfl
  omega

/-! ## Scaling and clamp of the current (claims C4, C5) -/

theorem main_window_amp_ma (s : State) :
    (main_window s).amp_ma = amp_reading s.buf_adc1 s.B_AMP := by
  unfold main_window amp_reading
  by_cases h : s.t_det = s.tick_sec &&& 0xff
  · simp [h]
  · simp [h]

/-- Without overflow of the product, the 16-bit value stored in `amp_ma` is the
integer pre-clamp result modulo `2^16`. -/
theorem scale_amp_mod (raw : Nat) (b_amp : Int)
    (hprod : K_AMP * (raw >>> (AIN_SMOOTH - 7)) < 4294967296) :
    ((scale_amp raw b_amp % 65536 : Nat) : Int) = amp_preclamp raw b_amp % 65536 := by
  unfold scale_amp amp_preclamp toU32
  rw [Nat.mod_eq_of_lt hprod]
  generalize (K_AMP * (raw >>> (AIN_SMOOTH - 7))) >>> (7 + 8) = x
  omega

theorem clamp_amp_lt (a : Nat) : clamp_amp a < 0x8000 := by
  unfold clamp_amp
  split_ifs with h <;> omega

theorem clamp_amp_zero (a : Nat) (h : a = 0 ∨ 0x8000 ≤ a) : clamp_amp a = 0 := by
  unfold clamp_amp
  rw [if_pos (by omega)]

/-- C4 (as amended). The clamp acts on the 16-bit value stored in `amp_ma`:
when that value is 0 or at least `0x8000`, which is the case whenever the
integer result `((K_AMP * (raw >> 6)) >> 15) + B_AMP` lies in `-32768 .. 0` or
in `0x8000 .. 0xFFFF` (product within 32 bits), the reported `amp_ma` is
exactly 0; the reported current is always below the sentinel `0x8000`. -/
theorem amp_clamp (s : State) :
    ((scale_amp s.buf_adc1 s.B_AMP % 65536 = 0 ∨
        0x8000 ≤ scale_amp s.buf_adc1 s.B_AMP % 65536) → (main_window s).amp_ma = 0) ∧
    (K_AMP * (s.buf_adc1 >>> (AIN_SMOOTH - 7)) < 4294967296 →
      ((-32768 ≤ amp_preclamp s.buf_adc1 s.B_AMP ∧ amp_preclamp s.buf_adc1 s.B_AMP ≤ 0) ∨
        (0x8000 ≤ amp_preclamp s.buf_adc1 s.B_AMP ∧
          amp_preclamp s.buf_adc1 s.B_AMP ≤ 0xFFFF)) → (main_window s).amp_ma = 0) ∧
    (main_window s).amp_ma < 0x8000 := by
  rw [main_window_amp_ma]
  refine ⟨fun h => clamp_amp_zero _ h, fun hprod h => clamp_amp_zero _ ?_, clamp_amp_lt _⟩
  have hm := scale_amp_mod s.buf_adc1 s.B_AMP hprod
  omega

/-- Counterexample for C4 as stated: with an empty accumulator and the offset
`B_AMP = 65541`, the pre-clamp result is `65541 ≥ 0x8000`, the 16-bit `amp_ma`
receives 5, and the reported current is 5, not 0; likewise the offset
`B_AMP = -65531` gives the pre-clamp result `-65531 ≤ 0` and the reported
current 5. -/
theorem amp_clamp_counterexample :
    (amp_preclamp 0 65541 = 65541 ∧ scale_amp 0 65541 = 65541 ∧
      (0x8000 : Int) ≤ amp_preclamp 0 65541 ∧
      (main_window { State.boot (fun _ => 0) with B_AMP := 65541 }).amp_ma = 5) ∧
    (amp_preclamp 0 (-65531) = -65531 ∧ amp_preclamp 0 (-65531) ≤ 0 ∧
      (main_window { State.boot (fun _ => 0) with B_AMP := -65531 }).amp_ma = 5) := by
  refine ⟨⟨by decide, by decide, by decide, ?_⟩, by decide, by decide, ?_⟩
  · rw [main_window_amp_ma]
    decide
  · rw [main_window_amp_ma]
    decide

/-- Witness for C4: an empty accumulator with the initial offset -116 gives the
pre-clamp result -116, and the reported current is 0. -/
theorem amp_clamp_witness :
    K_AMP * ((State.boot (fun _ => 0)).buf_adc1 >>> (AIN_SMOOTH - 7)) < 4294967296 ∧
    amp_preclamp (State.boot (fun _ => 0)).buf_adc1 (State.boot (fun _ => 0)).B_AMP = -116 ∧
    (main_window (State.boot (fun _ => 0))).amp_ma = 0 :=
  ⟨by decide, by decide,
    (amp_clamp (State.boot (fun _ => 0))).2.1 (by decide) (Or.inl (by decide))⟩

theorem shift_scale_mono (k raw1 raw2 : Nat) (hle : raw1 ≤ raw2) :
    (k * (raw1 >>> (AIN_SMOOTH - 7))) >>> (7 + 8) ≤ (k * (raw2 >>> (AIN_SMOOTH - 7))) >>> (7 + 8) := by
  simp only [Nat.shiftRight_eq_div_pow]
  exact Nat.div_le_div_right (Nat.mul_le_mul_left k (Nat.div_le_div_right hle))

/-- C5 (as amended). For a calibration offset `B_AMP ≥ -32768` and accumulator
values `raw1 ≤ raw2` such that at `raw2` the product stays within 32 bits and
the pre-clamp result stays below the sentinel `0x8000`, the scaled-and-clamped
current for `raw1` is at most the one for `raw2`. -/
theorem amp_reading_mono (raw1 raw2 : Nat) (b_amp : Int) (hle : raw1 ≤ raw2)
    (hprod : K_AMP * (raw2 >>> (AIN_SMOOTH - 7)) < 4294967296)
    (hlo : -32768 ≤ b_amp) (hhi : amp_preclamp raw2 b_amp < 0x8000) :
    amp_reading raw1 b_amp ≤ amp_reading raw2 b_amp := by
  have hprod1 : K_AMP * (raw1 >>> (AIN_SMOOTH - 7)) < 4294967296 := by
    refine lt_of_le_of_lt (Nat.mul_le_mul_left K_AMP ?_) hprod
    simp only [Nat.shiftRight_eq_div_pow]
    exact Nat.div_le_div_right hle
  have h1 := scale_amp_mod raw1 b_amp hprod1
  have h2 := scale_amp_mod raw2 b_amp hprod
  have hmono := shift_scale_mono K_AMP raw1 raw2 hle
  unfold amp_preclamp at h1 h2 hhi
  unfold amp_reading clamp_amp
  generalize scale_amp raw1 b_amp % 65536 = a1 at h1 ⊢
  generalize scale_amp raw2 b_amp % 65536 = a2 at h2 ⊢
  generalize (K_AMP * (raw1 >>> (AIN_SMOOTH - 7))) >>> (7 + 8) = x1 at h1 hmono
  generalize (K_AMP * (raw2 >>> (AIN_SMOOTH - 7))) >>> (7 + 8) = x2 at h2 hmono hhi
  split_ifs <;> omega

/-- Witness for C5: with the initial offset -116, the accumulator values 640
and 8380416 (a full window of 10-bit samples at full scale). -/
theorem amp_reading_mono_witness :
    amp_reading 640 (-116) ≤ amp_reading 8380416 (-116) :=
  amp_reading_mono 640 8380416 (-116) (by decide) (by decide) (by decide) (by decide)

/-- Counterexample for C5 as stated: with the initial offset -116 the larger
accumulator value `2^26` reaches the sentinel and reads 0 while the smaller
value 8380416 reads 7684; with the offset 32000 already a full-scale window
reads 0 while an empty accumulator reads 32000. -/
theorem amp_reading_mono_counterexample :
    (8380416 ≤ 67108864 ∧ amp_reading 8380416 (-116) = 7684 ∧
      amp_reading 67108864 (-116) = 0 ∧
      ¬ amp_reading 8380416 (-116) ≤ amp_reading 67108864 (-116)) ∧
    (0 ≤ 8380416 ∧ amp_reading 0 32000 = 32000 ∧ amp_reading 8380416 32000 = 0 ∧
      ¬ amp_reading 0 32000 ≤ amp_reading 8380416 32000) := by
  decide

/-! ## One call of `poll_adc` -/

theorem poll_adc_body_one (inp : AdcIn) (s : State) :
    poll_adc_body inp 1 s =
      { s with buf_adc1 := ((if s.count = 0 then 0 else s.buf_adc1) + inp.dr1) % 4294967296 } := by
  unfold poll_adc_body
  by_cases h : s.count = 0
  · simp [State.set_buf_adc, State.buf_adc, AdcIn.dr, h]
  · have h' : ¬ 0 = s.count := fun e => h e.symm
    simp [State.set_buf_adc, State.buf_adc, AdcIn.dr, h, h']

theorem poll_adc_body_zero (inp : AdcIn) (s : State) :
    poll_adc_body inp 0 s =
      if inp.dr0 < AIN_UVP_TH ∧ s.low_voltage_lockout = false then
        { (save_eeprom inp.iapsr { s with buf_adc0 :=
            ((if s.count = 0 then 0 else s.buf_adc0) + inp.dr0) % 4294967296 }).2
          with low_voltage_lockout := true }
      else
        { s with buf_adc0 := ((if s.count = 0 then 0 else s.buf_adc0) + inp.dr0) % 4294967296 } := by
  unfold poll_adc_body
  by_cases h : s.count = 0
  · simp [State.set_buf_adc, State.buf_adc, AdcIn.dr, h]
  · have h' : ¬ 0 = s.count := fun e => h e.symm
    simp [State.set_buf_adc, State.buf_adc, AdcIn.dr, h, h']

theorem poll_adc_body_zero_count (inp : AdcIn) (s : State) :
    (poll_adc_body inp 0 s).count = s.count := by
  rw [poll_adc_body_zero]
  split_ifs <;> simp

theorem poll_adc_body_zero_buf_adc1 (inp : AdcIn) (s : State) :
    (poll_adc_body inp 0 s).buf_adc1 = s.buf_adc1 := by
  rw [poll_adc_body_zero]
  split_ifs <;> simp

theorem poll_adc_body_zero_buf_adc0 (inp : AdcIn) (s : State) :
    (poll_adc_body inp 0 s).buf_adc0 =
      ((if s.count = 0 then 0 else s.buf_adc0) + inp.dr0) % 4294967296 := by
  rw [poll_adc_body_zero]
  split_ifs <;> simp

theorem poll_adc_body_zero_lockout (inp : AdcIn) (s : State) :
    (poll_adc_body inp 0 s).low_voltage_lockout =
      (s.low_voltage_lockout || decide (inp.dr0 < AIN_UVP_TH)) := by
  rw [poll_adc_body_zero]
  by_cases h1 : inp.dr0 < AIN_UVP_TH <;> cases h2 : s.low_voltage_lockout <;> simp [h1, h2]

theorem poll_adc_body_one_zero_count (inp : AdcIn) (s : State) :
    (poll_adc_body inp 1 (poll_adc_body inp 0 s)).count = s.count := by
  rw [poll_adc_body_one]
  exact poll_adc_body_zero_count inp s

/-- The result of `poll_adc` in terms of the two loop passes. -/
theorem poll_adc_eq (inp : AdcIn) (s : State) :
    poll_adc inp s =
      ((((s.count + 1) % 65536) >>> AIN_SMOOTH) % 256,
        { poll_adc_body inp 1 (poll_adc_body inp 0 s) with
          count := if (((s.count + 1) % 65536) >>> AIN_SMOOTH) % 256 ≠ 0 then 0
            else (s.count + 1) % 65536 }) := by
  unfold poll_adc
  simp only [poll_adc_body_one_zero_count]
  by_cases h : (((s.count + 1) % 65536) >>> AIN_SMOOTH) % 256 = 0
  · simp [h]
  · simp [h]

/-- The value returned by `poll_adc` depends on the cycle counter alone. -/
theorem poll_adc_fst (inp : AdcIn) (s : State) :
    (poll_adc inp s).1 = (((s.count + 1) % 65536) >>> AIN_SMOOTH) % 256 := by
  rw [poll_adc_eq]

theorem poll_adc_count (inp : AdcIn) (s : State) :
    (poll_adc inp s).2.count =
      if (((s.count + 1) % 65536) >>> AIN_SMOOTH) % 256 ≠ 0 then 0 else (s.count + 1) % 65536 := by
  rw [poll_adc_eq]

theorem poll_adc_buf_adc0 (inp : AdcIn) (s : State) :
    (poll_adc inp s).2.buf_adc0 =
      ((if s.count = 0 then 0 else s.buf_adc0) + inp.dr0) % 4294967296 := by
  rw [poll_adc_eq, poll_adc_body_one]
  exact poll_adc_body_zero_buf_adc0 inp s

theorem poll_adc_buf_adc1 (inp : AdcIn) (s : State) :
    (poll_adc inp s).2.buf_adc1 =
      ((if s.count = 0 then 0 else s.buf_adc1) + inp.dr1) % 4294967296 := by
  rw [poll_adc_eq, poll_adc_body_one]
  simp only [poll_adc_body_zero_count, poll_adc_body_zero_buf_adc1]

theorem poll_adc_lockout (inp : AdcIn) (s : State) :
    (poll_adc inp s).2.low_voltage_lockout =
      (s.low_voltage_lockout || decide (inp.dr0 < AIN_UVP_TH)) := by
  rw [poll_adc_eq, poll_adc_body_one]
  exact poll_adc_body_zero_lockout inp s


theorem poll_adc_body_zero_tick_sec (inp : AdcIn) (s : State) :
    (poll_adc_body inp 0 s).tick_sec = s.tick_sec := by
  rw [poll_adc_body_zero]
  split_ifs <;> simp

theorem poll_adc_tick_sec (inp : AdcIn) (s : State) :
    (poll_adc inp s).2.tick_sec = s.tick_sec := by
  rw [poll_adc_eq, poll_adc_body_one]
  exact poll_adc_body_zero_tick_sec inp s


theorem poll_adc_body_zero_e_mj (inp : AdcIn) (s : State) :
    (poll_adc_body inp 0 s).e_mj = s.e_mj := by
  rw [poll_adc_body_zero]
  split_ifs <;> simp

theorem poll_adc_e_mj (inp : AdcIn) (s : State) :
    (poll_adc inp s).2.e_mj = s.e_mj := by
  rw [poll_adc_eq, poll_adc_body_one]
  exact poll_adc_body_zero_e_mj inp s


theorem poll_adc_body_zero_cap_mc (inp : AdcIn) (s : State) :
    (poll_adc_body inp 0 s).cap_mc = s.cap_mc := by
  rw [poll_adc_body_zero]
  split_ifs <;> simp

theorem poll_adc_cap_mc (inp : AdcIn) (s : State) :
    (poll_adc inp s).2.cap_mc = s.cap_mc := by
  rw [poll_adc_eq, poll_adc_body_one]
  exact poll_adc_body_zero_cap_mc inp s


theorem poll_adc_body_zero_settings0 (inp : AdcIn) (s : State) :
    (poll_adc_body inp 0 s).settings0 = s.settings0 := by
  rw [poll_adc_body_zero]
  split_ifs <;> simp

theorem poll_adc_settings0 (inp : AdcIn) (s : State) :
    (poll_adc inp s).2.settings0 = s.settings0 := by
  rw [poll_adc_eq, poll_adc_body_one]
  exact poll_adc_body_zero_settings0 inp s


theorem poll_adc_body_zero_settings1 (inp : AdcIn) (s : State) :
    (poll_adc_body inp 0 s).settings1 = s.settings1 := by
  rw [poll_adc_body_zero]
  split_ifs <;> simp

theorem poll_adc_settings1 (inp : AdcIn) (s : State) :
    (poll_adc inp s).2.settings1 = s.settings1 := by
  rw [poll_adc_eq, poll_adc_body_one]
  exact poll_adc_body_zero_settings1 inp s


theorem poll_adc_body_zero_settings2 (inp : AdcIn) (s : State) :
    (poll_adc_body inp 0 s).settings2 = s.settings2 := by
  rw [poll_adc_body_zero]
  split_ifs <;> simp

theorem poll_adc_settings2 (inp : AdcIn) (s : State) :
    (poll_adc inp s).2.settings2 = s.settings2 := by
  rw [poll_adc_eq, poll_adc_body_one]
  exact poll_adc_body_zero_settings2 inp s


theorem poll_adc_body_zero_settings3 (inp : AdcIn) (s : State) :
    (poll_adc_body inp 0 s).settings3 = s.settings3 := by
  rw [poll_adc_body_zero]
  split_ifs <;> simp

theorem poll_adc_settings3 (inp : AdcIn) (s : State) :
    (poll_adc inp s).2.settings3 = s.settings3 := by
  rw [poll_adc_eq, poll_adc_body_one]
  exact poll_adc_body_zero_settings3 inp s


theorem poll_adc_body_zero_B_AMP (inp : AdcIn) (s : State) :
    (poll_adc_body inp 0 s).B_AMP = s.B_AMP := by
  rw [poll_adc_body_zero]
  split_ifs <;> simp

theorem poll_adc_B_AMP (inp : AdcIn) (s : State) :
    (poll_adc inp s).2.B_AMP = s.B_AMP := by
  rw [poll_adc_eq, poll_adc_body_one]
  exact poll_adc_body_zero_B_AMP inp s


theorem poll_adc_body_zero_volt_mv (inp : AdcIn) (s : State) :
    (poll_adc_body inp 0 s).volt_mv = s.volt_mv := by
  rw [poll_adc_body_zero]
  split_ifs <;> simp

theorem poll_adc_volt_mv (inp : AdcIn) (s : State) :
    (poll_adc inp s).2.volt_mv = s.volt_mv := by
  rw [poll_adc_eq, poll_adc_body_one]
  exact poll_adc_body_zero_volt_mv inp s


theorem poll_adc_body_zero_amp_ma (inp : AdcIn) (s : State) :
    (poll_adc_body inp 0 s).amp_ma = s.amp_ma := by
  rw [poll_adc_body_zero]
  split_ifs <;> simp

theorem poll_adc_amp_ma (inp : AdcIn) (s : State) :
    (poll_adc inp s).2.amp_ma = s.amp_ma := by
  rw [poll_adc_eq, poll_adc_body_one]
  exact poll_adc_body_zero_amp_ma inp s


theorem poll_adc_body_zero_pwr_mw (inp : AdcIn) (s : State) :
    (poll_adc_body inp 0 s).pwr_mw = s.pwr_mw := by
  rw [poll_adc_body_zero]
  split_ifs <;> simp

theorem poll_adc_pwr_mw (inp : AdcIn) (s : State) :
    (poll_adc inp s).2.pwr_mw = s.pwr_mw := by
  rw [poll_adc_eq, poll_adc_body_one]
  exact poll_adc_body_zero_pwr_mw inp s


theorem poll_adc_body_zero_t_det (inp : AdcIn) (s : State) :
    (poll_adc_body inp 0 s).t_det = s.t_det := by
  rw [poll_adc_body_zero]
  split_ifs <;> simp

theorem poll_adc_t_det (inp : AdcIn) (s : State) :
    (poll_adc inp s).2.t_det = s.t_det := by
  rw [poll_adc_eq, poll_adc_body_one]
  exact poll_adc_body_zero_t_det inp s


theorem poll_adc_body_zero_acc_events (inp : AdcIn) (s : State) :
    (poll_adc_body inp 0 s).acc_events = s.acc_events := by
  rw [poll_adc_body_zero]
  split_ifs <;> simp

theorem poll_adc_acc_events (inp : AdcIn) (s : State) :
    (poll_adc inp s).2.acc_events = s.acc_events := by
  rw [poll_adc_eq, poll_adc_body_one]
  exact poll_adc_body_zero_acc_events inp s

/-! ## Under-voltage lockout (claim C6) -/

theorem main_window_volt_mv (s : State) :
    (main_window s).volt_mv = scale_volt s.buf_adc0 % 65536 := by
  unfold main_window
  by_cases h : s.t_det = s.tick_sec &&& 0xff
  · simp [h]
  · simp [h]

theorem main_window_lockout (s : State) :
    (main_window s).low_voltage_lockout =
      if scale_volt s.buf_adc0 % 65536 > 4200 ∧ s.low_voltage_lockout = true then false
      else s.low_voltage_lockout := by
  unfold main_window
  by_cases h : s.t_det = s.tick_sec &&& 0xff
  · simp [h]
  · simp [h]

theorem load_eeprom_lockout (s : State) :
    (load_eeprom s).low_voltage_lockout = s.low_voltage_lockout := rfl

theorem load_eeprom_volt_mv (s : State) : (load_eeprom s).volt_mv = s.volt_mv := rfl

theorem toggle_orient_lockout (s : State) :
    (toggle_orient s).low_voltage_lockout = s.low_voltage_lockout := by
  unfold toggle_orient
  split_ifs <;> rfl

theorem toggle_orient_volt_mv (s : State) : (toggle_orient s).volt_mv = s.volt_mv := by
  unfold toggle_orient
  split_ifs <;> rfl

theorem main_button_lockout (b : Button) (iapsr : Nat) (s : State) :
    (main_button b iapsr s).low_voltage_lockout = s.low_voltage_lockout := by
  cases b
  · rfl
  · simp only [main_button, changeModeBack, load_eeprom_lockout, save_eeprom_low_voltage_lockout]
    split_ifs
    · rfl
    · rw [toggle_orient_lockout]
  · simp only [main_button, changeMode, load_eeprom_lockout, save_eeprom_low_voltage_lockout]
    split_ifs
    · rfl
    · rw [toggle_orient_lockout]
  · rfl

theorem main_button_volt_mv (b : Button) (iapsr : Nat) (s : State) :
    (main_button b iapsr s).volt_mv = s.volt_mv := by
  cases b
  · rfl
  · simp only [main_button, changeModeBack, load_eeprom_volt_mv, save_eeprom_volt_mv]
    split_ifs
    · rfl
    · rw [toggle_orient_volt_mv]
  · simp only [main_button, changeMode, load_eeprom_volt_mv, save_eeprom_volt_mv]
    split_ifs
    · rfl
    · rw [toggle_orient_volt_mv]
  · rfl

theorem tick_isr_lockout (n : Nat) (s : State) :
    (tick_isr n s).low_voltage_lockout = s.low_voltage_lockout := rfl

/-- One pass of the main loop entered with the lockout engaged: the flag
survives unless this pass completes a window with `volt_mv > 4200`. -/
theorem main_step_lockout (x : LoopIn) (s : State) (h : s.low_voltage_lockout = true) :
    (main_step x s).low_voltage_lockout =
      if (poll_adc x.adc (tick_isr x.ticks s)).1 ≠ 0 ∧ 4200 < (main_step x s).volt_mv then false
      else true := by
  have hp : (poll_adc x.adc (tick_isr x.ticks s)).2.low_voltage_lockout = true := by
    rw [poll_adc_lockout, tick_isr_lockout, h]
    rfl
  unfold main_step main_iter
  simp only [main_button_lockout, main_button_volt_mv]
  by_cases hr : (poll_adc x.adc (tick_isr x.ticks s)).1 = 0
  · simp [hr, hp]
  · simp only [ne_eq, hr, not_false_eq_true, if_true, true_and]
    rw [main_window_lockout, main_window_volt_mv, hp]
    simp

/-- C6. Lockout hysteresis.  A raw voltage sample below 260 leaves the lockout
engaged after the poll that read it, and no poll clears it.  With the lockout
engaged, a completed window whose scaled voltage `volt_mv` is at most 4200
leaves it engaged and a completed window with `volt_mv > 4200` clears it; a
pass of the main loop that completes no window leaves it engaged.  Hence over
a run of passes in which every completed window has `volt_mv ≤ 4200` the
lockout stays engaged, and the first completed window after it with
`volt_mv > 4200` clears it. -/
theorem lockout_hysteresis (s : State) (inp : AdcIn) (run : List LoopIn) (x : LoopIn) :
    (inp.dr0 < AIN_UVP_TH → (poll_adc inp s).2.low_voltage_lockout = true) ∧
    (s.low_voltage_lockout = true → (poll_adc inp s).2.low_voltage_lockout = true) ∧
    (s.low_voltage_lockout = true → (main_window s).volt_mv ≤ 4200 →
      (main_window s).low_voltage_lockout = true) ∧
    (s.low_voltage_lockout = true → 4200 < (main_window s).volt_mv →
      (main_window s).low_voltage_lockout = false) ∧
    (s.low_voltage_lockout = true → windows_low run s = true →
      (main_run run s).low_voltage_lockout = true ∧
      ((poll_adc x.adc (tick_isr x.ticks (main_run run s))).1 ≠ 0 →
        4200 < (main_step x (main_run run s)).volt_mv →
        (main_step x (main_run run s)).low_voltage_lockout = false)) := by
  refine ⟨?_, ?_, ?_, ?_, ?_⟩
  · intro h
    rw [poll_adc_lockout]
    simp [h]
  · intro h
    rw [poll_adc_lockout, h]
    rfl
  · intro h hv
    rw [main_window_volt_mv] at hv
    rw [main_window_lockout, h, if_neg (by omega)]
  · intro h hv
    rw [main_window_volt_mv] at hv
    rw [main_window_lockout, h, if_pos ⟨hv, rfl⟩]
  · intro h hlow
    have hrun : (main_run run s).low_voltage_lockout = true := by
      induction run generalizing s with
      | nil => exact h
      | cons y rest ih =>
        simp only [windows_low, Bool.and_eq_true, Bool.or_eq_true, decide_eq_true_eq] at hlow
        have hy : (main_step y s).low_voltage_lockout = true := by
          rw [main_step_lockout y s h]
          rcases hlow.1 with h0 | hv
          · simp [h0]
          · rw [if_neg (by omega)]
        exact ih (main_step y s) hy hlow.2
    refine ⟨hrun, fun hr hv => ?_⟩
    rw [main_step_lockout x _ hrun, if_pos ⟨hr, hv⟩]

/-- Witness for C6: a sample of 250 engages the lockout from the reset state;
from `locked_state` the window ending at 4200 mV keeps it and the window
ending at 4201 mV clears it. -/
theorem lockout_hysteresis_witness :
    (poll_adc pass_low.adc (State.boot (fun _ => 0))).2.low_voltage_lockout = true ∧
    (main_step pass_low locked_state).volt_mv = 4200 ∧
    (main_run [pass_low] locked_state).low_voltage_lockout = true ∧
    (main_step pass_high locked_state).volt_mv = 4201 ∧
    (main_step pass_high (main_run [] locked_state)).low_voltage_lockout = false :=
  ⟨(lockout_hysteresis (State.boot (fun _ => 0)) pass_low.adc [] pass_low).1 (by decide),
    by decide,
    ((lockout_hysteresis locked_state pass_low.adc [pass_low] pass_low).2.2.2.2
      (by decide) (by decide)).1,
    by decide,
    ((lockout_hysteresis locked_state pass_low.adc [] pass_high).2.2.2.2
      (by decide) (by decide)).2 (by decide) (by decide)⟩

/-! ## Save followed by load, field by field -/

theorem save_load_B_AMP (iapsr : Nat) (s : State) (hunlock : iapsr &&& 0x08 ≠ 0)
    (hlo : -2147483648 ≤ s.B_AMP) (hhi : s.B_AMP < 2147483648) :
    (load_eeprom (save_eeprom iapsr s).2).B_AMP = s.B_AMP := by
  rw [save_eeprom_unlocked iapsr s hunlock]
  simp only [load_eeprom, OFFSET_B_AMP]
  rw [ee_read_write_word, Nat.mod_eq_of_lt (toU32_lt _)]
  exact toI32_toU32 s.B_AMP hlo hhi

theorem save_load_settings (iapsr : Nat) (s : State) (hunlock : iapsr &&& 0x08 ≠ 0) :
    (load_eeprom (save_eeprom iapsr s).2).settings0 = s.settings0 ∧
    (load_eeprom (save_eeprom iapsr s).2).settings1 = s.settings1 ∧
    (load_eeprom (save_eeprom iapsr s).2).settings2 = s.settings2 ∧
    (load_eeprom (save_eeprom iapsr s).2).settings3 = s.settings3 := by
  rw [save_eeprom_unlocked iapsr s hunlock]
  simp only [load_eeprom, OFFSET_TICK, OFFSET_E, OFFSET_CAP, OFFSET_SETTINGS, OFFSET_B_AMP]
  refine ⟨?_, ?_, ?_, ?_⟩
  · rw [ee_write_word_other _ _ _ _ (by omega)]
    exact (ee_write_bytes4_at _ 12 _ _ _ _).1
  · rw [ee_write_word_other _ _ _ _ (by omega)]
    exact (ee_write_bytes4_at _ 12 _ _ _ _).2.1
  · rw [ee_write_word_other _ _ _ _ (by omega)]
    exact (ee_write_bytes4_at _ 12 _ _ _ _).2.2.1
  · rw [ee_write_word_other _ _ _ _ (by omega)]
    exact (ee_write_bytes4_at _ 12 _ _ _ _).2.2.2

/-! ## The calibration loop returns -/

theorem foldl_poll_snd (l : List AdcIn) (a b : Nat) (s : State) :
    (l.foldl (fun p inp => poll_adc inp p.2) (a, s)).2 =
      (l.foldl (fun p inp => poll_adc inp p.2) (b, s)).2 := by
  cases l with
  | nil => rfl
  | cons x tl => rfl

theorem poll_run_cons_snd (x : AdcIn) (l : List AdcIn) (s : State) :
    (poll_run (x :: l) s).2 = (poll_run l (poll_adc x s).2).2 := by
  unfold poll_run
  rw [List.foldl_cons]
  exact foldl_poll_snd l _ _ _

/-- From a cycle counter `8192 - n`, the loop `while(!poll_adc()){}` returns
after exactly `n` readings. -/
theorem wait_window_returns (n : Nat) (ins : List AdcIn) (s : State) (hn : 0 < n)
    (hc : s.count + n = 8192) (hlen : n ≤ ins.length) :
    wait_window ins s = some (ins.drop n, (poll_run (ins.take n) s).2) := by
  induction n generalizing ins s with
  | zero => omega
  | succ m ih =>
    cases ins with
    | nil => simp at hlen
    | cons x tl =>
      simp only [List.length_cons] at hlen
      simp only [wait_window, List.drop_succ_cons, List.take_succ_cons, poll_run_cons_snd]
      rw [poll_adc_fst]
      simp only [AIN_SMOOTH, Nat.shiftRight_eq_div_pow]
      by_cases hm : m = 0
      · subst hm
        rw [if_pos (by omega)]
        simp [poll_run]
      · rw [if_neg (by omega)]
        refine ih tl _ (by omega) ?_ (by omega)
        rw [poll_adc_count]
        simp only [AIN_SMOOTH, Nat.shiftRight_eq_div_pow]
        rw [if_neg (by omega)]
        omega

theorem poll_adc_count_mod (inp : AdcIn) (s : State) (h : s.count < 8192) :
    (poll_adc inp s).2.count = (s.count + 1) % 8192 := by
  rw [poll_adc_count]
  simp only [AIN_SMOOTH, Nat.shiftRight_eq_div_pow]
  split_ifs <;> omega

theorem poll_run_count (l : List AdcIn) (s : State) (h : s.count < 8192) :
    (poll_run l s).2.count = (s.count + l.length) % 8192 := by
  induction l generalizing s with
  | nil =>
    show s.count = (s.count + 0) % 8192
    omega
  | cons x tl ih =>
    have hx := poll_adc_count_mod x s h
    rw [poll_run_cons_snd, ih _ (by omega), hx, List.length_cons]
    omega

/-- From a cycle boundary and with `8192 * n` readings at hand, `n` passes of
the calibration loop return, at a cycle boundary again. -/
theorem calibrate_loop_returns (n : Nat) (ins : List AdcIn) (c1 c : Int) (s : State)
    (hc : s.count = 0) (hlen : 8192 * n ≤ ins.length) :
    ∃ rest previous latest s1,
      calibrate_loop n ins c1 c s = some (rest, previous, latest, s1) ∧ s1.count = 0 := by
  induction n generalizing ins c1 c s with
  | zero => exact ⟨ins, c1, c, s, rfl, hc⟩
  | succ m ih =>
    have hw := wait_window_returns 8192 ins s (by decide) (by omega) (by omega)
    have hcount : (poll_run (ins.take 8192) s).2.count = 0 := by
      rw [poll_run_count _ _ (by omega), List.length_take]
      omega
    have hrest : 8192 * m ≤ (ins.drop 8192).length := by
      rw [List.length_drop]
      omega
    obtain ⟨rest, p, l, s1, h1, h2⟩ := ih (ins.drop 8192) c
      (cal_candidate (poll_run (ins.take 8192) s).2.buf_adc1) _ hcount hrest
    refine ⟨rest, p, l, s1, ?_, h2⟩
    simp only [calibrate_loop, hw]
    exact h1

theorem calibrate_a_returns (ins : List AdcIn) (iapsr : Nat) (s : State)
    (hc : s.count = 0) (hlen : 32768 ≤ ins.length) :
    (calibrate_a ins iapsr s).isSome = true := by
  obtain ⟨rest, p, l, s1, h1, _⟩ := calibrate_loop_returns 4 ins 0 s.B_AMP s hc (by omega)
  unfold calibrate_a
  rw [h1]
  rfl

/-! ## Calibration (claim C7) -/

theorem wrapI32_id (x : Int) (hlo : -2147483648 ≤ x) (hhi : x < 2147483648) :
    wrapI32 x = x :=
  toI32_toU32 x hlo hhi

theorem tdiv_two_bounds (x : Int) (hlo : -2147483648 ≤ x) (hhi : x < 2147483648) :
    -2147483648 ≤ Int.tdiv x 2 ∧ Int.tdiv x 2 < 2147483648 := by
  rcases le_or_lt 0 x with h | h
  · rw [Int.tdiv_eq_ediv h (by decide)]
    omega
  · have e : Int.tdiv x 2 = -((-x) / 2) := by
      rw [← Int.tdiv_eq_ediv (by omega) (by decide), Int.neg_tdiv, neg_neg]
    rw [e]
    omega

theorem wait_window_B_AMP (ins rest : List AdcIn) (s s' : State)
    (h : wait_window ins s = some (rest, s')) : s'.B_AMP = s.B_AMP := by
  induction ins generalizing s with
  | nil => simp [wait_window] at h
  | cons inp tl ih =>
    simp only [wait_window] at h
    split_ifs at h with hr
    · simp only [Option.some.injEq, Prod.mk.injEq] at h
      rw [← h.2, poll_adc_B_AMP]
    · rw [ih _ h, poll_adc_B_AMP]

theorem calibrate_loop_B_AMP (n : Nat) (ins rest : List AdcIn) (c1 c prev latest : Int)
    (s s' : State) (h : calibrate_loop n ins c1 c s = some (rest, prev, latest, s')) :
    s'.B_AMP = s.B_AMP := by
  induction n generalizing ins c1 c s with
  | zero =>
    simp only [calibrate_loop, Option.some.injEq, Prod.mk.injEq] at h
    rw [← h.2.2.2]
  | succ n ih =>
    simp only [calibrate_loop] at h
    cases hw : wait_window ins s with
    | none => simp [hw] at h
    | some p =>
      obtain ⟨rest1, s1⟩ := p
      simp only [hw] at h
      rw [ih _ _ _ _ h, wait_window_B_AMP ins rest1 s s1 hw]

/-- C7 (as amended). With the last two candidates `(previous, latest)`,
`calibrate_a` accepts if and only if `latest < 200` and
`|latest - previous| < 10`.  On acceptance it assigns the average
`(latest + previous) / 2` (C division) to `B_AMP`, saves and reloads; when the
store unlocks, that average is the offset `calibrate_a` leaves.  Otherwise the
whole state, `B_AMP` included, is left unchanged.  Candidates `[100, 105]`
leave the offset 102 when the store unlocks; candidates `[100, 250]` leave the
state unchanged.  The candidates are the last two values computed by the loop
of `calibrate_a`, which does not change `B_AMP` and which returns once four
windows of readings (`4 * 2^13`) have been polled from a cycle boundary. -/
theorem calibration_acceptance (iapsr : Nat) (s : State) (previous latest : Int)
    (hp : -1073741824 ≤ previous ∧ previous < 1073741824)
    (hl : -1073741824 ≤ latest ∧ latest < 1073741824) :
    (latest < 200 ∧ abs (latest - previous) < 10 → iapsr &&& 0x08 ≠ 0 →
      (calibrate_accept iapsr previous latest s).B_AMP = Int.tdiv (latest + previous) 2) ∧
    (¬ (latest < 200 ∧ abs (latest - previous) < 10) →
      calibrate_accept iapsr previous latest s = s) ∧
    (iapsr &&& 0x08 ≠ 0 → (calibrate_accept iapsr 100 105 s).B_AMP = 102) ∧
    calibrate_accept iapsr 100 250 s = s ∧
    (∀ ins rest s1, calibrate_loop 4 ins 0 s.B_AMP s = some (rest, previous, latest, s1) →
      calibrate_a ins iapsr s = some (rest, calibrate_accept iapsr previous latest s1) ∧
      s1.B_AMP = s.B_AMP) ∧
    (s.count = 0 → ∀ ins, 32768 ≤ ins.length → (calibrate_a ins iapsr s).isSome = true) := by
  have hd : wrapI32 (latest - previous) = latest - previous :=
    wrapI32_id _ (by omega) (by omega)
  have hs : wrapI32 (latest + previous) = latest + previous :=
    wrapI32_id _ (by omega) (by omega)
  have hb := tdiv_two_bounds (latest + previous) (by omega) (by omega)
  refine ⟨?_, ?_, ?_, ?_, ?_, fun hc ins hlen => calibrate_a_returns ins iapsr s hc hlen⟩
  · intro hacc hunlock
    unfold calibrate_accept
    rw [hd, hs, if_pos hacc]
    exact save_load_B_AMP iapsr _ hunlock hb.1 hb.2
  · intro hrej
    unfold calibrate_accept
    rw [hd, if_neg hrej]
  · intro hunlock
    have e1 : wrapI32 (105 - 100) = 5 := by decide
    have e2 : Int.tdiv (wrapI32 (105 + 100)) 2 = 102 := by decide
    unfold calibrate_accept
    rw [e1, e2, if_pos (by decide)]
    exact save_load_B_AMP iapsr _ hunlock (show (-2147483648 : Int) ≤ 102 by decide)
      (show (102 : Int) < 2147483648 by decide)
  · have e1 : wrapI32 (250 - 100) = 150 := by decide
    unfold calibrate_accept
    rw [e1, if_neg (by decide)]
  · intro ins rest s1 hloop
    refine ⟨?_, calibrate_loop_B_AMP 4 ins rest 0 s.B_AMP previous latest s s1 hloop⟩
    unfold calibrate_a
    rw [hloop]

/-- Witness for C7: candidates `(-100, -105)` with the store unlocked leave
the offset -102 on `sample_state`. -/
theorem calibration_acceptance_witness :
    (calibrate_accept 0x08 (-100) (-105) sample_state).B_AMP = -102 :=
  (calibration_acceptance 0x08 sample_state (-100) (-105) (by decide) (by decide)).1
    (by decide) (by decide)

/-- Counterexample for C7 as stated: candidates `[100, 105]` pass the
acceptance test, but when the store does not unlock the save writes nothing
and the reload puts the stored offset (here 0) into `B_AMP`, not 102. -/
theorem calibration_acceptance_counterexample :
    ((105 : Int) < 200 ∧ abs (105 - 100) < 10) ∧
    (calibrate_accept 0x00 100 105 (State.boot (fun _ => 0))).B_AMP = 0 := by
  decide

/-! ## Display mode cycling (claims C8, C9) -/

theorem changeMode_step (iapsr : Nat) (s : State) (hunlock : iapsr &&& 0x08 ≠ 0)
    (h : s.settings2 < 3) :
    (changeMode iapsr s).settings2 = s.settings2 + 1 ∧
    (changeMode iapsr s).settings0 = s.settings0 ∧
    (changeMode iapsr s).settings1 = s.settings1 := by
  unfold changeMode
  simp only [if_pos h]
  obtain ⟨e0, e1, e2, _⟩ := save_load_settings iapsr
    { s with settings2 := (s.settings2 + 1) % 256 } hunlock
  refine ⟨?_, e0, e1⟩
  rw [e2]
  show (s.settings2 + 1) % 256 = s.settings2 + 1
  omega

theorem changeMode_wrap (iapsr : Nat) (s : State) (hunlock : iapsr &&& 0x08 ≠ 0)
    (h : ¬ s.settings2 < 3) :
    (changeMode iapsr s).settings2 = 0 ∧
    (changeMode iapsr s).settings0 = (if 0xa0 = s.settings0 then 0xa1 else 0xa0) ∧
    (changeMode iapsr s).settings1 = (if 0xa0 = s.settings0 then 0xc8 else 0xc0) := by
  unfold changeMode
  simp only [if_neg h]
  obtain ⟨e0, e1, e2, _⟩ := save_load_settings iapsr
    (toggle_orient { s with settings2 := 0 }) hunlock
  rw [e0, e1, e2]
  unfold toggle_orient
  by_cases h0 : 0xa0 = s.settings0
  · simp [h0]
  · simp [h0]

theorem changeModeBack_step (iapsr : Nat) (s : State) (hunlock : iapsr &&& 0x08 ≠ 0)
    (h : s.settings2 > 0 ∧ s.settings2 < 4) :
    (changeModeBack iapsr s).settings2 = s.settings2 - 1 ∧
    (changeModeBack iapsr s).settings0 = s.settings0 ∧
    (changeModeBack iapsr s).settings1 = s.settings1 := by
  unfold changeModeBack
  simp only [if_pos h]
  obtain ⟨e0, e1, e2, _⟩ := save_load_settings iapsr
    { s with settings2 := s.settings2 - 1 } hunlock
  exact ⟨e2, e0, e1⟩

theorem changeModeBack_wrap (iapsr : Nat) (s : State) (hunlock : iapsr &&& 0x08 ≠ 0)
    (h : ¬ (s.settings2 > 0 ∧ s.settings2 < 4)) :
    (changeModeBack iapsr s).settings2 = 3 ∧
    (changeModeBack iapsr s).settings0 = (if 0xa0 = s.settings0 then 0xa1 else 0xa0) ∧
    (changeModeBack iapsr s).settings1 = (if 0xa0 = s.settings0 then 0xc8 else 0xc0) := by
  unfold changeModeBack
  simp only [if_neg h]
  obtain ⟨e0, e1, e2, _⟩ := save_load_settings iapsr
    (toggle_orient { s with settings2 := 3 }) hunlock
  rw [e0, e1, e2]
  unfold toggle_orient
  by_cases h0 : 0xa0 = s.settings0
  · simp [h0]
  · simp [h0]

/-- C8. Forward mode cycling: from display mode 0 with either orientation
pair, four `changeMode` transitions whose saves succeed visit the modes 1, 2, 3
and return to 0; the orientation bytes are unchanged by the first three and
are switched to the other pair by the fourth, so the orientation toggles
exactly once. -/
theorem changeMode_cycle (s : State) (i1 i2 i3 i4 : Nat)
    (h1 : i1 &&& 0x08 ≠ 0) (h2 : i2 &&& 0x08 ≠ 0) (h3 : i3 &&& 0x08 ≠ 0)
    (h4 : i4 &&& 0x08 ≠ 0) (hmode : s.settings2 = 0)
    (horient : (s.settings0 = 0xa0 ∧ s.settings1 = 0xc0) ∨
      (s.settings0 = 0xa1 ∧ s.settings1 = 0xc8)) :
    ((changeMode i1 s).settings2 = 1 ∧
      (changeMode i1 s).settings0 = s.settings0 ∧
      (changeMode i1 s).settings1 = s.settings1) ∧
    ((changeMode i2 (changeMode i1 s)).settings2 = 2 ∧
      (changeMode i2 (changeMode i1 s)).settings0 = s.settings0 ∧
      (changeMode i2 (changeMode i1 s)).settings1 = s.settings1) ∧
    ((changeMode i3 (changeMode i2 (changeMode i1 s))).settings2 = 3 ∧
      (changeMode i3 (changeMode i2 (changeMode i1 s))).settings0 = s.settings0 ∧
      (changeMode i3 (changeMode i2 (changeMode i1 s))).settings1 = s.settings1) ∧
    ((changeMode i4 (changeMode i3 (changeMode i2 (changeMode i1 s)))).settings2 = 0 ∧
      (changeMode i4 (changeMode i3 (changeMode i2 (changeMode i1 s)))).settings0 =
        (if s.settings0 = 0xa0 then 0xa1 else 0xa0) ∧
      (changeMode i4 (changeMode i3 (changeMode i2 (changeMode i1 s)))).settings1 =
        (if s.settings0 = 0xa0 then 0xc8 else 0xc0) ∧
      (changeMode i4 (changeMode i3 (changeMode i2 (changeMode i1 s)))).settings0 ≠
        s.settings0 ∧
      (changeMode i4 (changeMode i3 (changeMode i2 (changeMode i1 s)))).settings1 ≠
        s.settings1) := by
  obtain ⟨a2, a0, a1⟩ := changeMode_step i1 s h1 (by omega)
  obtain ⟨b2, b0, b1⟩ := changeMode_step i2 (changeMode i1 s) h2 (by omega)
  obtain ⟨c2, c0, c1⟩ := changeMode_step i3 (changeMode i2 (changeMode i1 s)) h3 (by omega)
  obtain ⟨d2, d0, d1⟩ :=
    changeMode_wrap i4 (changeMode i3 (changeMode i2 (changeMode i1 s))) h4 (by omega)
  rw [c0, b0, a0] at d0 d1
  refine ⟨⟨by omega, a0, a1⟩, ⟨by omega, by omega, by omega⟩,
    ⟨by omega, by omega, by omega⟩, d2, ?_, ?_, ?_, ?_⟩
  · rw [d0]; rcases horient with h | h <;> simp [h.1]
  · rw [d1]; rcases horient with h | h <;> simp [h.1]
  · rw [d0]; rcases horient with h | h <;> simp [h.1]
  · rw [d1]; rcases horient with h | h <;> simp [h.1, h.2]

/-- Witness for C8: the cycle from mode 0 in the normal orientation, every
save unlocked. -/
theorem changeMode_cycle_witness :
    (changeMode 8 (changeMode 8 (changeMode 8 (changeMode 8
      { sample_state with settings0 := 0xa0, settings1 := 0xc0, settings2 := 0 })))).settings2
      = 0 ∧
    (changeMode 8 (changeMode 8 (changeMode 8 (changeMode 8
      { sample_state with settings0 := 0xa0, settings1 := 0xc0, settings2 := 0 })))).settings0
      = 0xa1 :=
  ⟨(changeMode_cycle { sample_state with settings0 := 0xa0, settings1 := 0xc0, settings2 := 0 }
      8 8 8 8 (by decide) (by decide) (by decide) (by decide) rfl
      (Or.inl ⟨rfl, rfl⟩)).2.2.2.1,
    (changeMode_cycle { sample_state with settings0 := 0xa0, settings1 := 0xc0, settings2 := 0 }
      8 8 8 8 (by decide) (by decide) (by decide) (by decide) rfl
      (Or.inl ⟨rfl, rfl⟩)).2.2.2.2.1⟩

/-- C9. Backward mode cycling: from display mode 0 with either orientation
pair, four `changeModeBack` transitions whose saves succeed visit the modes 3,
2, 1 and return to 0; the first transition switches the orientation bytes to
the other pair and the next three leave them alone, so the orientation toggles
exactly once. -/
theorem changeModeBack_cycle (s : State) (i1 i2 i3 i4 : Nat)
    (h1 : i1 &&& 0x08 ≠ 0) (h2 : i2 &&& 0x08 ≠ 0) (h3 : i3 &&& 0x08 ≠ 0)
    (h4 : i4 &&& 0x08 ≠ 0) (hmode : s.settings2 = 0)
    (horient : (s.settings0 = 0xa0 ∧ s.settings1 = 0xc0) ∨
      (s.settings0 = 0xa1 ∧ s.settings1 = 0xc8)) :
    ((changeModeBack i1 s).settings2 = 3 ∧
      (changeModeBack i1 s).settings0 = (if s.settings0 = 0xa0 then 0xa1 else 0xa0) ∧
      (changeModeBack i1 s).settings1 = (if s.settings0 = 0xa0 then 0xc8 else 0xc0) ∧
      (changeModeBack i1 s).settings0 ≠ s.settings0 ∧
      (changeModeBack i1 s).settings1 ≠ s.settings1) ∧
    ((changeModeBack i2 (changeModeBack i1 s)).settings2 = 2 ∧
      (changeModeBack i2 (changeModeBack i1 s)).settings0 = (changeModeBack i1 s).settings0 ∧
      (changeModeBack i2 (changeModeBack i1 s)).settings1 = (changeModeBack i1 s).settings1) ∧
    ((changeModeBack i3 (changeModeBack i2 (changeModeBack i1 s))).settings2 = 1 ∧
      (changeModeBack i3 (changeModeBack i2 (changeModeBack i1 s))).settings0 =
        (changeModeBack i1 s).settings0 ∧
      (changeModeBack i3 (changeModeBack i2 (changeModeBack i1 s))).settings1 =
        (changeModeBack i1 s).settings1) ∧
    ((changeModeBack i4 (changeModeBack i3 (changeModeBack i2 (changeModeBack i1 s)))).settings2
        = 0 ∧
      (changeModeBack i4 (changeModeBack i3 (changeModeBack i2 (changeModeBack i1 s)))).settings0
        = (changeModeBack i1 s).settings0 ∧
      (changeModeBack i4 (changeModeBack i3 (changeModeBack i2 (changeModeBack i1 s)))).settings1
        = (changeModeBack i1 s).settings1) := by
  obtain ⟨a2, a0, a1⟩ := changeModeBack_wrap i1 s h1 (by omega)
  obtain ⟨b2, b0, b1⟩ := changeModeBack_step i2 (changeModeBack i1 s) h2 (by omega)
  obtain ⟨c2, c0, c1⟩ :=
    changeModeBack_step i3 (changeModeBack i2 (changeModeBack i1 s)) h3 (by omega)
  obtain ⟨d2, d0, d1⟩ :=
    changeModeBack_step i4 (changeModeBack i3 (changeModeBack i2 (changeModeBack i1 s))) h4
      (by omega)
  refine ⟨⟨a2, ?_, ?_, ?_, ?_⟩, ⟨by omega, b0, b1⟩, ⟨by omega, by omega, by omega⟩,
    ⟨by omega, by omega, by omega⟩⟩
  · rw [a0]; rcases horient with h | h <;> simp [h.1]
  · rw [a1]; rcases horient with h | h <;> simp [h.1]
  · rw [a0]; rcases horient with h | h <;> simp [h.1]
  · rw [a1]; rcases horient with h | h <;> simp [h.1, h.2]

/-- Witness for C9: the backward cycle from mode 0 in the rotated orientation,
every save unlocked. -/
theorem changeModeBack_cycle_witness :
    (changeModeBack 8 (changeModeBack 8 (changeModeBack 8 (changeModeBack 8
      { sample_state with settings2 := 0 })))).settings2 = 0 ∧
    (changeModeBack 8 (changeModeBack 8 (changeModeBack 8 (changeModeBack 8
      { sample_state with settings2 := 0 })))).settings0 =
      (changeModeBack 8 { sample_state with settings2 := 0 }).settings0 ∧
    (changeModeBack 8 { sample_state with settings2 := 0 }).settings0 = 0xa0 :=
  ⟨(changeModeBack_cycle { sample_state with settings2 := 0 } 8 8 8 8
      (by decide) (by decide) (by decide) (by decide) rfl (Or.inr ⟨rfl, rfl⟩)).2.2.2.1,
    (changeModeBack_cycle { sample_state with settings2 := 0 } 8 8 8 8
      (by decide) (by decide) (by decide) (by decide) rfl (Or.inr ⟨rfl, rfl⟩)).2.2.2.2.1,
    (changeModeBack_cycle { sample_state with settings2 := 0 } 8 8 8 8
      (by decide) (by decide) (by decide) (by decide) rfl (Or.inr ⟨rfl, rfl⟩)).1.2.1⟩

/-! ## The rectangular filter (claim C10) -/

theorem poll_run_snoc (ins : List AdcIn) (x : AdcIn) (s : State) :
    poll_run (ins ++ [x]) s = poll_adc x (poll_run ins s).2 := by
  simp [poll_run, List.foldl_append]

theorem cycle_samples_snoc_boundary (ins : List AdcIn) (x : AdcIn)
    (h : ins.length % 8192 = 0) : cycle_samples (ins ++ [x]) = [x] := by
  unfold cycle_samples
  have e : (ins ++ [x]).length - (((ins ++ [x]).length - 1) % 8192 + 1) = ins.length := by
    simp only [List.length_append, List.length_singleton]
    omega
  rw [e, List.drop_left]

theorem cycle_samples_snoc_inside (ins : List AdcIn) (x : AdcIn)
    (h : ins.length % 8192 ≠ 0) : cycle_samples (ins ++ [x]) = cycle_samples ins ++ [x] := by
  unfold cycle_samples
  have e : (ins ++ [x]).length - (((ins ++ [x]).length - 1) % 8192 + 1) =
      ins.length - ((ins.length - 1) % 8192 + 1) := by
    simp only [List.length_append, List.length_singleton]
    omega
  rw [e, List.drop_append_of_le_length (by omega)]

theorem cycle_samples_length (ins : List AdcIn) (h : ins ≠ []) :
    (cycle_samples ins).length = (ins.length - 1) % 8192 + 1 := by
  have hpos : 0 < ins.length := List.length_pos.mpr h
  unfold cycle_samples
  rw [List.length_drop]
  omega

theorem sum_map_le (f : AdcIn → Nat) (l : List AdcIn) (h : ∀ x ∈ l, f x < 65536) :
    (l.map f).sum ≤ 65535 * l.length := by
  induction l with
  | nil => simp
  | cons a tl ih =>
    have ha := h a (List.mem_cons_self a tl)
    have ht := ih (fun x hx => h x (List.mem_cons_of_mem a hx))
    simp only [List.map_cons, List.sum_cons, List.length_cons]
    omega

theorem cycle_samples_subset (ins : List AdcIn) : ∀ x ∈ cycle_samples ins, x ∈ ins :=
  fun _ hx => List.mem_of_mem_drop hx

/-- State of the filter after any number of polls started at a cycle boundary. -/
theorem poll_run_inv (s : State) (hcount : s.count = 0) (ins : List AdcIn)
    (hwf : ∀ inp ∈ ins, inp.WF) :
    (poll_run ins s).2.count = ins.length % 8192 ∧
    (poll_run ins s).1 = (if 0 < ins.length ∧ ins.length % 8192 = 0 then 1 else 0) ∧
    (ins ≠ [] →
      (poll_run ins s).2.buf_adc0 = ((cycle_samples ins).map AdcIn.dr0).sum ∧
      (poll_run ins s).2.buf_adc1 = ((cycle_samples ins).map AdcIn.dr1).sum) := by
  induction ins using List.reverseRecOn with
  | nil =>
    refine ⟨?_, ?_, fun h => absurd rfl h⟩
    · simpa [poll_run] using hcount
    · simp [poll_run]
  | append_singleton l x ih =>
    obtain ⟨ihc, _, ihb⟩ := ih (fun inp h => hwf inp (List.mem_append_left _ h))
    have hx : x.WF := hwf x (by simp)
    have hlen : (l ++ [x]).length = l.length + 1 := by simp
    have hcl : l.length % 8192 < 8192 := Nat.mod_lt _ (by decide)
    rw [poll_run_snoc, poll_adc_count, poll_adc_fst, poll_adc_buf_adc0, poll_adc_buf_adc1,
      ihc, hlen]
    simp only [AIN_SMOOTH, Nat.shiftRight_eq_div_pow]
    refine ⟨?_, ?_, fun _ => ?_⟩
    · split_ifs <;> omega
    · split_ifs <;> omega
    · by_cases hc : l.length % 8192 = 0
      · rw [cycle_samples_snoc_boundary l x hc, if_pos hc, if_pos hc]
        simp only [List.map_cons, List.map_nil, List.sum_cons, List.sum_nil]
        have h0 := hx.1
        have h1 := hx.2
        omega
      · have hl : l ≠ [] := by
          intro e
          rw [e] at hc
          exact hc rfl
        obtain ⟨b0, b1⟩ := ihb hl
        have hwfc : ∀ y ∈ cycle_samples l, y.WF :=
          fun y hy => hwf y (List.mem_append_left _ (cycle_samples_subset l y hy))
        have s0 := sum_map_le AdcIn.dr0 (cycle_samples l) (fun y hy => (hwfc y hy).1)
        have s1 := sum_map_le AdcIn.dr1 (cycle_samples l) (fun y hy => (hwfc y hy).2)
        have hcl2 := cycle_samples_length l hl
        rw [cycle_samples_snoc_inside l x hc, if_neg hc, if_neg hc, b0, b1]
        simp only [List.map_append, List.map_cons, List.map_nil, List.sum_append, List.sum_cons,
          List.sum_nil]
        have h0 := hx.1
        have h1 := hx.2
        omega

/-- C10. Rectangular filter sum.  Polling from a cycle boundary (`count = 0`),
for every sequence of 16-bit readings and any prior accumulator contents,
after each call each accumulator `buf_adc[i]` equals the exact sum of that
channel's readings of the current cycle, so it is zeroed at cycle boundaries
only.  A call reports window complete exactly after every `2^13`-th reading,
and then the current cycle is the last `2^13` readings: each accumulator holds
their exact sum. -/
theorem rect_filter_sum (s : State) (ins : List AdcIn) (hcount : s.count = 0)
    (hwf : ∀ inp ∈ ins, inp.WF) (hne : ins ≠ []) :
    (poll_run ins s).2.buf_adc0 = ((cycle_samples ins).map AdcIn.dr0).sum ∧
    (poll_run ins s).2.buf_adc1 = ((cycle_samples ins).map AdcIn.dr1).sum ∧
    ((poll_run ins s).1 ≠ 0 ↔ ins.length % 8192 = 0) ∧
    ((poll_run ins s).1 ≠ 0 →
      (ins.drop (ins.length - 8192)).length = 8192 ∧
      (poll_run ins s).2.buf_adc0 = ((ins.drop (ins.length - 8192)).map AdcIn.dr0).sum ∧
      (poll_run ins s).2.buf_adc1 = ((ins.drop (ins.length - 8192)).map AdcIn.dr1).sum) := by
  obtain ⟨_, hr, hb⟩ := poll_run_inv s hcount ins hwf
  obtain ⟨b0, b1⟩ := hb hne
  have hpos : 0 < ins.length := List.length_pos.mpr hne
  have hiff : (poll_run ins s).1 ≠ 0 ↔ ins.length % 8192 = 0 := by
    rw [hr]
    by_cases h : ins.length % 8192 = 0
    · simp [h, hpos]
    · simp [h]
  refine ⟨b0, b1, hiff, fun hret => ?_⟩
  have hmod := hiff.mp hret
  have hcyc : cycle_samples ins = ins.drop (ins.length - 8192) := by
    unfold cycle_samples
    have e : ins.length - ((ins.length - 1) % 8192 + 1) = ins.length - 8192 := by omega
    rw [e]
  rw [← hcyc]
  refine ⟨?_, b0, b1⟩
  rw [cycle_samples_length ins hne]
  omega

theorem full_window_wf : ∀ inp ∈ full_window, inp.WF := by
  intro inp h
  rw [List.eq_of_mem_replicate h]
  decide

theorem full_window_length : full_window.length = 8192 := by
  rw [full_window, List.length_replicate]

theorem full_window_ne : full_window ≠ [] :=
  List.ne_nil_of_length_pos (by rw [full_window_length]; decide)

theorem full_window_cycle : cycle_samples full_window = full_window := by
  unfold cycle_samples
  rw [full_window_length]
  rfl

/-- Witness for C10: one full window of readings (300, 5) from the reset
state leaves the sums `8192 * 300` and `8192 * 5` and reports completion. -/
theorem rect_filter_sum_witness :
    (poll_run full_window (State.boot (fun _ => 0))).2.buf_adc0 = 2457600 ∧
    (poll_run full_window (State.boot (fun _ => 0))).2.buf_adc1 = 40960 ∧
    (poll_run full_window (State.boot (fun _ => 0))).1 ≠ 0 := by
  have h := rect_filter_sum (State.boot (fun _ => 0)) full_window rfl full_window_wf
    full_window_ne
  rw [full_window_cycle] at h
  refine ⟨?_, ?_, ?_⟩
  · rw [h.1, full_window, List.map_replicate, List.sum_replicate, smul_eq_mul]
    decide
  · rw [h.2.1, full_window, List.map_replicate, List.sum_replicate, smul_eq_mul]
    decide
  · rw [h.2.2.1, full_window_length]

/-! ## Window cadence (claim C11) -/

/-- C11. Window cadence: started with the cycle counter at 0, the `n`-th call
of `poll_adc` returns 1 when `n` is a multiple of `2^13` and 0 otherwise, and
the counter it leaves is `n mod 2^13`: it is 0 exactly after the calls that
return non-zero. -/
theorem poll_adc_cadence (s : State) (ins : List AdcIn) (hcount : s.count = 0)
    (hne : ins ≠ []) :
    (poll_run ins s).1 = (if ins.length % 8192 = 0 then 1 else 0) ∧
    (poll_run ins s).2.count = ins.length % 8192 ∧
    ((poll_run ins s).2.count = 0 ↔ (poll_run ins s).1 ≠ 0) := by
  have hpos : 0 < ins.length := List.length_pos.mpr hne
  have hcnt : (poll_run ins s).2.count = ins.length % 8192 := by
    rw [poll_run_count ins s (by omega), hcount, Nat.zero_add]
  have hret : (poll_run ins s).1 = (if ins.length % 8192 = 0 then 1 else 0) := by
    have hsplit := List.dropLast_append_getLast hne
    have hl : ins.dropLast.length + 1 = ins.length := by
      rw [List.length_dropLast]
      omega
    rw [← hsplit, poll_run_snoc, poll_adc_fst, poll_run_count _ s (by omega), hcount, hsplit]
    simp only [AIN_SMOOTH, Nat.shiftRight_eq_div_pow]
    split_ifs <;> omega
  refine ⟨hret, hcnt, ?_⟩
  rw [hret, hcnt]
  split_ifs with h <;> simp [h]

/-- Witness for C11: the 8192 calls of one full window from the reset state
end with the return value 1 and the counter back at 0. -/
theorem poll_adc_cadence_witness :
    (poll_run full_window (State.boot (fun _ => 0))).1 = 1 ∧
    (poll_run full_window (State.boot (fun _ => 0))).2.count = 0 := by
  have h := poll_adc_cadence (State.boot (fun _ => 0)) full_window rfl full_window_ne
  rw [full_window_length] at h
  exact ⟨h.1, h.2.1⟩

/-! ## Power (claim C12) -/

theorem main_window_pwr_mw (s : State) :
    (main_window s).pwr_mw =
      (((main_window s).volt_mv * (main_window s).amp_ma) % 4294967296 / 1000) % 65536 := by
  rw [main_window_volt_mv, main_window_amp_ma]
  unfold main_window amp_reading
  by_cases h : s.t_det = s.tick_sec &&& 0xff
  · simp [h]
  · simp [h]

/-- The power is the product formula whenever that fits the 16-bit `pwr_mw`. -/
theorem main_window_pwr_mw_small (s : State)
    (h : (main_window s).volt_mv * (main_window s).amp_ma / 1000 < 65536) :
    (main_window s).pwr_mw = (main_window s).volt_mv * (main_window s).amp_ma / 1000 := by
  rw [main_window_pwr_mw]
  have hv : (main_window s).volt_mv < 65536 := by
    rw [main_window_volt_mv]
    omega
  have ha : (main_window s).amp_ma < 32768 := by
    rw [main_window_amp_ma]
    exact clamp_amp_lt _
  have hp : (main_window s).volt_mv * (main_window s).amp_ma < 4294967296 := by
    calc (main_window s).volt_mv * (main_window s).amp_ma
        ≤ 65535 * 32767 := Nat.mul_le_mul (by omega) (by omega)
      _ < 4294967296 := by decide
  rw [Nat.mod_eq_of_lt hp, Nat.mod_eq_of_lt h]

/-- C12 (code at the failing input). At 14 V and 5 A, inside the range the
firmware advertises, the window code computes `volt_mv = 14000` and
`amp_ma = 5000`, whose product formula gives 70000 mW, but the 16-bit
`pwr_mw` receives `70000 mod 65536 = 4464`. -/
theorem pwr_mw_truncated_at_full_load :
    (main_window full_load_state).volt_mv = 14000 ∧
    (main_window full_load_state).amp_ma = 5000 ∧
    (main_window full_load_state).volt_mv * (main_window full_load_state).amp_ma / 1000
      = 70000 ∧
    (main_window full_load_state).pwr_mw = 4464 := by
  have hv : (main_window full_load_state).volt_mv = 14000 := by
    rw [main_window_volt_mv]
    decide
  have ha : (main_window full_load_state).amp_ma = 5000 := by
    rw [main_window_amp_ma]
    decide
  refine ⟨hv, ha, ?_, ?_⟩
  · rw [hv, ha]
  · rw [main_window_pwr_mw, hv, ha]

/-! ## Energy and charge totals (claim C13) -/

theorem main_window_e_mj (s : State) :
    (main_window s).e_mj =
      if s.t_det = s.tick_sec % 256 then s.e_mj
      else (s.e_mj + (main_window s).pwr_mw) % 4294967296 := by
  rw [main_window_pwr_mw, main_window_volt_mv, main_window_amp_ma]
  unfold main_window amp_reading
  simp only [and_0xff]
  by_cases h : s.t_det = s.tick_sec % 256
  · simp [h]
  · simp [h]

theorem main_window_cap_mc (s : State) :
    (main_window s).cap_mc =
      if s.t_det = s.tick_sec % 256 then s.cap_mc
      else (s.cap_mc + (main_window s).amp_ma) % 4294967296 := by
  rw [main_window_amp_ma]
  unfold main_window amp_reading
  simp only [and_0xff]
  by_cases h : s.t_det = s.tick_sec % 256
  · simp [h]
  · simp [h]

/-- C13 (as amended). In one integration step each total either stays or
becomes the old total plus the reading of this window modulo `2^32`; when
that sum does not overflow 32 bits (`e_mj + pwr_mw < 2^32`,
`cap_mc + amp_ma < 2^32`) the total does not decrease and grows by at most
one reading. -/
theorem totals_monotone (s : State)
    (he : s.e_mj + (main_window s).pwr_mw < 4294967296)
    (hc : s.cap_mc + (main_window s).amp_ma < 4294967296) :
    (s.e_mj ≤ (main_window s).e_mj ∧
      (main_window s).e_mj ≤ s.e_mj + (main_window s).pwr_mw) ∧
    (s.cap_mc ≤ (main_window s).cap_mc ∧
      (main_window s).cap_mc ≤ s.cap_mc + (main_window s).amp_ma) ∧
    ((main_window s).e_mj = s.e_mj ∧ (main_window s).cap_mc = s.cap_mc ∨
      (main_window s).e_mj = s.e_mj + (main_window s).pwr_mw ∧
        (main_window s).cap_mc = s.cap_mc + (main_window s).amp_ma) := by
  have h1 := main_window_e_mj s
  have h2 := main_window_cap_mc s
  by_cases h : s.t_det = s.tick_sec % 256
  · rw [if_pos h] at h1 h2
    omega
  · rw [if_neg h, Nat.mod_eq_of_lt he] at h1
    rw [if_neg h, Nat.mod_eq_of_lt hc] at h2
    omega

/-- Witness for C13: the window of 14 V and 5 A, one second after the last
integration, takes both totals from 0 to the readings 4464 and 5000. -/
theorem totals_monotone_witness :
    (main_window integrating_state).e_mj = 4464 ∧
    (main_window integrating_state).cap_mc = 5000 := by
  have hp : (main_window integrating_state).pwr_mw = 4464 := by
    rw [main_window_pwr_mw, main_window_volt_mv, main_window_amp_ma]
    decide
  have ha : (main_window integrating_state).amp_ma = 5000 := by
    rw [main_window_amp_ma]
    decide
  have he : integrating_state.e_mj = 0 := rfl
  have hc : integrating_state.cap_mc = 0 := rfl
  have h := totals_monotone integrating_state (by rw [hp, he]; decide)
    (by rw [ha, hc]; decide)
  have e1 := main_window_e_mj integrating_state
  have e2 := main_window_cap_mc integrating_state
  rw [if_neg (by decide), hp, he] at e1
  rw [if_neg (by decide), ha, hc] at e2
  exact ⟨e1, e2⟩

/-- Counterexample for C13 as stated: with both totals at `2^32 - 1`, the
window of 14 V and 5 A wraps them to 4463 and 4999, below their prior
values. -/
theorem totals_monotone_counterexample :
    saturated_state.e_mj = 4294967295 ∧ saturated_state.cap_mc = 4294967295 ∧
    (main_window saturated_state).e_mj = 4463 ∧
    (main_window saturated_state).cap_mc = 4999 ∧
    (main_window saturated_state).e_mj < saturated_state.e_mj ∧
    (main_window saturated_state).cap_mc < saturated_state.cap_mc := by
  have hp : (main_window saturated_state).pwr_mw = 4464 := by
    rw [main_window_pwr_mw, main_window_volt_mv, main_window_amp_ma]
    decide
  have ha : (main_window saturated_state).amp_ma = 5000 := by
    rw [main_window_amp_ma]
    decide
  have he : saturated_state.e_mj = 4294967295 := rfl
  have hc : saturated_state.cap_mc = 4294967295 := rfl
  have e1 := main_window_e_mj saturated_state
  have e2 := main_window_cap_mc saturated_state
  rw [if_neg (by decide), hp, he] at e1
  rw [if_neg (by decide), ha, hc] at e2
  refine ⟨he, hc, e1, e2, ?_, ?_⟩
  · rw [e1, he]
    decide
  · rw [e2, hc]
    decide

/-! ## The under-voltage guard (claim C14) -/

theorem poll_adc_body_counted_fst (inp : AdcIn) (i : Nat) (s : State) :
    (poll_adc_body_counted inp i s).1 = poll_adc_body inp i s := by
  unfold poll_adc_body_counted poll_adc_body
  simp only []
  split_ifs <;> rfl

theorem poll_adc_body_counted_one (inp : AdcIn) (s : State) :
    (poll_adc_body_counted inp 1 s).2 = 0 := by
  unfold poll_adc_body_counted
  simp

theorem poll_adc_body_counted_zero (inp : AdcIn) (s : State) :
    (poll_adc_body_counted inp 0 s).2 =
      if inp.dr0 < AIN_UVP_TH ∧ s.low_voltage_lockout = false then 1 else 0 := by
  unfold poll_adc_body_counted
  by_cases h : s.count = 0
  · by_cases h1 : inp.dr0 < AIN_UVP_TH <;> cases h2 : s.low_voltage_lockout <;>
      simp [State.set_buf_adc, State.buf_adc, AdcIn.dr, h, h1, h2]
  · have h' : ¬ 0 = s.count := fun e => h e.symm
    by_cases h1 : inp.dr0 < AIN_UVP_TH <;> cases h2 : s.low_voltage_lockout <;>
      simp [State.set_buf_adc, State.buf_adc, AdcIn.dr, h, h', h1, h2]

/-- Dropping the count from `poll_adc_counted` gives `poll_adc`. -/
theorem poll_adc_counted_erase (inp : AdcIn) (s : State) :
    (poll_adc_counted inp s).1 = (poll_adc inp s).1 ∧
    (poll_adc_counted inp s).2.1 = (poll_adc inp s).2 := by
  unfold poll_adc_counted poll_adc
  simp only [poll_adc_body_counted_fst]
  split_ifs <;> exact ⟨rfl, rfl⟩

theorem poll_adc_counted_saves (inp : AdcIn) (s : State) :
    (poll_adc_counted inp s).2.2 =
      if inp.dr0 < AIN_UVP_TH ∧ s.low_voltage_lockout = false then 1 else 0 := by
  unfold poll_adc_counted
  simp only [poll_adc_body_counted_one, poll_adc_body_counted_zero, Nat.add_zero]
  split_ifs <;> rfl

theorem save_eeprom_eeprom_buf_adc0 (iapsr v : Nat) (s : State) :
    (save_eeprom iapsr { s with buf_adc0 := v }).2.eeprom = (save_eeprom iapsr s).2.eeprom := by
  by_cases h : iapsr &&& 0x08 = 0
  · rw [save_eeprom_locked _ _ h, save_eeprom_locked _ _ h]
  · rw [save_eeprom_unlocked _ _ h, save_eeprom_unlocked _ _ h]

theorem poll_adc_eeprom (inp : AdcIn) (s : State) :
    (poll_adc inp s).2.eeprom =
      if inp.dr0 < AIN_UVP_TH ∧ s.low_voltage_lockout = false then
        (save_eeprom inp.iapsr s).2.eeprom
      else s.eeprom := by
  rw [poll_adc_eq, poll_adc_body_one]
  show (poll_adc_body inp 0 s).eeprom = _
  rw [poll_adc_body_zero]
  by_cases hg : inp.dr0 < AIN_UVP_TH ∧ s.low_voltage_lockout = false
  · rw [if_pos hg, if_pos hg]
    exact save_eeprom_eeprom_buf_adc0 _ _ _
  · rw [if_neg hg, if_neg hg]

/-- C14. Under-voltage guard step, with the calls of `save_eeprom` counted in
`poll_adc_counted` (whose return value and state are those of `poll_adc`).
When the voltage sample is below 260 and the lockout flag is clear, one call
saves exactly once, the EEPROM is what that save leaves, and the flag is set
afterwards whatever the unlock status.  When the flag is already set or the
voltage sample is at least 260, no save is made and neither the flag nor the
EEPROM changes.  The pass for the current channel never saves, and exchanging
the current sample changes neither the number of saves, the flag nor the
EEPROM. -/
theorem uvp_guard_step (inp : AdcIn) (s : State) (dr1' : Nat) :
    ((poll_adc_counted inp s).1 = (poll_adc inp s).1 ∧
      (poll_adc_counted inp s).2.1 = (poll_adc inp s).2) ∧
    (inp.dr0 < AIN_UVP_TH ∧ s.low_voltage_lockout = false →
      (poll_adc_counted inp s).2.2 = 1 ∧
      (poll_adc inp s).2.low_voltage_lockout = true ∧
      (poll_adc inp s).2.eeprom = (save_eeprom inp.iapsr s).2.eeprom) ∧
    (s.low_voltage_lockout = true ∨ AIN_UVP_TH ≤ inp.dr0 →
      (poll_adc_counted inp s).2.2 = 0 ∧
      (poll_adc inp s).2.low_voltage_lockout = s.low_voltage_lockout ∧
      (poll_adc inp s).2.eeprom = s.eeprom) ∧
    (poll_adc_body_counted inp 1 s).2 = 0 ∧
    ((poll_adc_counted { inp with dr1 := dr1' } s).2.2 = (poll_adc_counted inp s).2.2 ∧
      (poll_adc { inp with dr1 := dr1' } s).2.low_voltage_lockout =
        (poll_adc inp s).2.low_voltage_lockout ∧
      (poll_adc { inp with dr1 := dr1' } s).2.eeprom = (poll_adc inp s).2.eeprom) := by
  refine ⟨poll_adc_counted_erase inp s, ?_, ?_, poll_adc_body_counted_one inp s, ?_⟩
  · intro h
    rw [poll_adc_counted_saves, poll_adc_lockout, poll_adc_eeprom, if_pos h, if_pos h]
    exact ⟨rfl, by simp [h.1], rfl⟩
  · intro h
    have hn : ¬ (inp.dr0 < AIN_UVP_TH ∧ s.low_voltage_lockout = false) := by
      rintro ⟨h1, h2⟩
      rcases h with h | h
      · rw [h] at h2
        exact Bool.noConfusion h2
      · omega
    rw [poll_adc_counted_saves, poll_adc_lockout, poll_adc_eeprom, if_neg hn, if_neg hn]
    refine ⟨rfl, ?_, rfl⟩
    rcases h with h | h
    · simp [h]
    · have : ¬ inp.dr0 < AIN_UVP_TH := by omega
      simp [this]
  · refine ⟨?_, ?_, ?_⟩
    · rw [poll_adc_counted_saves, poll_adc_counted_saves]
    · rw [poll_adc_lockout, poll_adc_lockout]
    · rw [poll_adc_eeprom, poll_adc_eeprom]

/-- Witness for C14: from the reset state a voltage sample of 250 triggers one
save and sets the flag, with the store locked as with it unlocked; a sample
of 300 triggers none. -/
theorem uvp_guard_step_witness :
    (poll_adc_counted { dr0 := 250, dr1 := 0, iapsr := 0x00 } (State.boot (fun _ => 0))).2.2 = 1 ∧
    (poll_adc { dr0 := 250, dr1 := 0, iapsr := 0x00 }
      (State.boot (fun _ => 0))).2.low_voltage_lockout = true ∧
    (poll_adc { dr0 := 250, dr1 := 0, iapsr := 0x08 }
      (State.boot (fun _ => 0))).2.low_voltage_lockout = true ∧
    (poll_adc_counted { dr0 := 300, dr1 := 0, iapsr := 0x08 } (State.boot (fun _ => 0))).2.2 = 0 :=
  ⟨((uvp_guard_step { dr0 := 250, dr1 := 0, iapsr := 0x00 } (State.boot (fun _ => 0)) 0).2.1
      ⟨by decide, rfl⟩).1,
    ((uvp_guard_step { dr0 := 250, dr1 := 0, iapsr := 0x00 } (State.boot (fun _ => 0)) 0).2.1
      ⟨by decide, rfl⟩).2.1,
    ((uvp_guard_step { dr0 := 250, dr1 := 0, iapsr := 0x08 } (State.boot (fun _ => 0)) 0).2.1
      ⟨by decide, rfl⟩).2.1,
    ((uvp_guard_step { dr0 := 300, dr1 := 0, iapsr := 0x08 } (State.boot (fun _ => 0)) 0).2.2.1
      (Or.inr (by decide))).1⟩

/-! ## The pre-shift of the scalers (claim C15) -/

theorem scale_volt_eq (raw : Nat) (h : K_VOLT * (raw / 64) < 4294967296) :
    scale_volt raw = 3625 * (raw / 64) / 32768 + 41 := by
  unfold scale_volt
  simp only [AIN_SMOOTH, Nat.shiftRight_eq_div_pow, Nat.reduceSub, Nat.reduceAdd, Nat.reducePow]
  have hb : toU32 B_VOLT = 41 := by decide
  rw [hb]
  simp only [K_VOLT] at h ⊢
  rw [Nat.mod_eq_of_lt h]
  have hq : 3625 * (raw / 64) / 32768 < 131072 := by omega
  omega

theorem cal_candidate_eq (raw : Nat) :
    cal_candidate raw = -((((K_AMP * (raw / 64)) % 4294967296 / 32768 : Nat) : Int)) := by
  unfold cal_candidate toI32
  simp only [AIN_SMOOTH, Nat.shiftRight_eq_div_pow, Nat.reduceSub, Nat.reduceAdd, Nat.reducePow]
  generalize K_AMP * (raw / 64) = p
  split_ifs <;> omega

/-- C15 (as amended). With the configured smoothing width 13 (at least 8) the
voltage scaler, the current scaler and the calibration pre-shift the
accumulated raw value right by `(width - 7) = 6` bits, multiply by the gain
and shift right by `7 + 8 = 15` bits:
`physical = ((K * (raw >> (width - 7))) >> 15) + B`, the voltage being
stored modulo `2^16` and the current modulo `2^16` before the clamp.  The
total shift is `width + 8 = 21` bits, as in the branch for widths below 8:
on a raw value that is a multiple of 64 both formulas agree. -/
theorem scaler_preshift (s : State)
    (hv : K_VOLT * (s.buf_adc0 / 64) < 4294967296)
    (ha : K_AMP * (s.buf_adc1 / 64) < 4294967296) :
    (AIN_SMOOTH - 7 = 6 ∧ 7 + 8 = 15 ∧ (AIN_SMOOTH - 7) + (7 + 8) = AIN_SMOOTH + 8) ∧
    (main_window s).volt_mv = (3625 * (s.buf_adc0 / 64) / 32768 + 41) % 65536 ∧
    (main_window s).amp_ma =
      clamp_amp ((((1952 * (s.buf_adc1 / 64) / 32768 : Nat) : Int) + s.B_AMP) % 65536).toNat ∧
    cal_candidate s.buf_adc1 = -(((1952 * (s.buf_adc1 / 64) / 32768 : Nat) : Int)) ∧
    (∀ x : Nat, (K_VOLT * ((64 * x) >>> (AIN_SMOOTH - 7))) >>> (7 + 8) =
      (K_VOLT * (64 * x)) >>> (AIN_SMOOTH + 8)) := by
  refine ⟨by decide, ?_, ?_, ?_, ?_⟩
  · rw [main_window_volt_mv, scale_volt_eq _ hv]
  · rw [main_window_amp_ma]
    have hm := scale_amp_mod s.buf_adc1 s.B_AMP
      (by simpa [AIN_SMOOTH, Nat.shiftRight_eq_div_pow] using ha)
    unfold amp_preclamp at hm
    simp only [AIN_SMOOTH, Nat.shiftRight_eq_div_pow, K_AMP, Nat.reduceSub, Nat.reduceAdd,
      Nat.reducePow] at hm
    unfold amp_reading
    congr 1
    omega
  · rw [cal_candidate_eq, Nat.mod_eq_of_lt ha]
    rfl
  · intro x
    simp only [AIN_SMOOTH, Nat.shiftRight_eq_div_pow, K_VOLT, Nat.reduceSub, Nat.reduceAdd,
      Nat.reducePow]
    omega

/-- Witness for C15: the window of `full_load_state`. -/
theorem scaler_preshift_witness :
    (main_window full_load_state).volt_mv = (3625 * (8075776 / 64) / 32768 + 41) % 65536 ∧
    cal_candidate full_load_state.buf_adc1 = -5116 :=
  ⟨(scaler_preshift full_load_state (by decide) (by decide)).2.1,
    (scaler_preshift full_load_state (by decide) (by decide)).2.2.2.1⟩

/-- Counterexample for C15 as stated: the code shifts by `width - 7 = 6`, not
by `width - 8 = 5`.  A pre-shift of 5 bits gives another reading whatever the
second shift: with 15 bits the accumulator 2457600 would read 8537 mV where
the code computes 4289 mV, with 16 bits the accumulator 608 would read 42 mV
where the code computes 41 mV, and no second shift reproduces the code on
both accumulators. -/
theorem scaler_preshift_counterexample :
    (AIN_SMOOTH - 8 = 5 ∧ AIN_SMOOTH - 7 = 6) ∧
    (scale_volt 2457600 = 4289 ∧ scale_spec K_VOLT B_VOLT 15 2457600 = 8537) ∧
    (scale_volt 608 = 41 ∧ scale_spec K_VOLT B_VOLT 16 608 = 42) ∧
    (∀ left_shift : Nat,
      scale_spec K_VOLT B_VOLT left_shift 608 ≠ (scale_volt 608 : Int) ∨
      scale_spec K_VOLT B_VOLT left_shift 2457600 ≠ (scale_volt 2457600 : Int)) := by
  refine ⟨by decide, by decide, by decide, fun l => ?_⟩
  have e1 : scale_volt 608 = 41 := by decide
  have e2 : scale_volt 2457600 = 4289 := by decide
  rw [e1, e2]
  unfold scale_spec
  simp only [AIN_SMOOTH, K_VOLT, B_VOLT, Nat.shiftRight_eq_div_pow, Nat.reduceSub,
    Nat.reducePow, Nat.reduceDiv, Nat.reduceMul]
  rcases Nat.lt_or_ge l 17 with h | h
  · left
    have hp : 2 ^ l ≤ 2 ^ 16 := Nat.pow_le_pow_right (by decide) (by omega)
    have hd : 68875 / 2 ^ 16 ≤ 68875 / 2 ^ l := Nat.div_le_div_left hp (by positivity)
    have : 68875 / 2 ^ 16 = 1 := by decide
    omega
  · right
    have hp : 2 ^ 17 ≤ 2 ^ l := Nat.pow_le_pow_right (by decide) h
    have hd : 278400000 / 2 ^ l ≤ 278400000 / 2 ^ 17 := Nat.div_le_div_left hp (by positivity)
    have : 278400000 / 2 ^ 17 = 2124 := by decide
    omega

/-! ## Ranges of the intermediate products (claim C16) -/

theorem sum_map_le_bound (f : AdcIn → Nat) (c : Nat) (l : List AdcIn)
    (h : ∀ x ∈ l, f x ≤ c) : (l.map f).sum ≤ c * l.length := by
  induction l with
  | nil => simp
  | cons a tl ih =>
    have ha := h a (List.mem_cons_self a tl)
    have ht := ih (fun x hx => h x (List.mem_cons_of_mem a hx))
    simp only [List.map_cons, List.sum_cons, List.length_cons, Nat.mul_succ]
    omega

/-- Ten-bit samples keep both accumulators within `2^13 * 1023`. -/
theorem poll_run_buf_le (s : State) (ins : List AdcIn) (hcount : s.count = 0)
    (h10 : ∀ inp ∈ ins, inp.dr0 ≤ 1023 ∧ inp.dr1 ≤ 1023) (hne : ins ≠ []) :
    (poll_run ins s).2.buf_adc0 ≤ 8192 * 1023 ∧ (poll_run ins s).2.buf_adc1 ≤ 8192 * 1023 := by
  have hwf : ∀ inp ∈ ins, inp.WF := fun inp hi => by
    have := h10 inp hi
    unfold AdcIn.WF
    omega
  obtain ⟨_, _, hb⟩ := poll_run_inv s hcount ins hwf
  obtain ⟨b0, b1⟩ := hb hne
  have hlen := cycle_samples_length ins hne
  have s0 := sum_map_le_bound AdcIn.dr0 1023 (cycle_samples ins)
    (fun y hy => (h10 y (cycle_samples_subset ins y hy)).1)
  have s1 := sum_map_le_bound AdcIn.dr1 1023 (cycle_samples ins)
    (fun y hy => (h10 y (cycle_samples_subset ins y hy)).2)
  rw [b0, b1]
  omega

/-- C16. No overflow in the expected range: for every accumulator value a
window of ten-bit samples can produce (`raw ≤ 2^13 * 1023`, which the filter
never exceeds on such samples), the products `K_VOLT * (raw >> 6)` and
`K_AMP * (raw >> 6)` are below `2^31`, and the scaled voltage
`((K_VOLT * (raw >> 6)) >> 15) + B_VOLT` is below `2^16`, so the 16-bit
`volt_mv` holds it without loss. -/
theorem no_overflow_expected_range (raw : Nat) (h : raw ≤ 8192 * 1023) :
    K_VOLT * (raw >>> (AIN_SMOOTH - 7)) < 2147483648 ∧
    K_AMP * (raw >>> (AIN_SMOOTH - 7)) < 2147483648 ∧
    (K_VOLT * (raw >>> (AIN_SMOOTH - 7))) >>> (7 + 8) + 41 < 65536 ∧
    scale_volt raw = (K_VOLT * (raw >>> (AIN_SMOOTH - 7))) >>> (7 + 8) + 41 ∧
    (∀ s : State, s.buf_adc0 = raw →
      (main_window s).volt_mv = (K_VOLT * (raw >>> (AIN_SMOOTH - 7))) >>> (7 + 8) + 41) ∧
    (∀ (s : State) (ins : List AdcIn), s.count = 0 →
      (∀ inp ∈ ins, inp.dr0 ≤ 1023 ∧ inp.dr1 ≤ 1023) → ins ≠ [] →
      (poll_run ins s).2.buf_adc0 ≤ 8192 * 1023 ∧
      (poll_run ins s).2.buf_adc1 ≤ 8192 * 1023) := by
  have hx : raw / 64 ≤ 130944 := by omega
  have hv : K_VOLT * (raw / 64) < 2147483648 := by
    simp only [K_VOLT]
    omega
  have ha : K_AMP * (raw / 64) < 2147483648 := by
    simp only [K_AMP]
    omega
  have hs := scale_volt_eq raw (by omega)
  have hq : 3625 * (raw / 64) / 32768 + 41 < 65536 := by omega
  simp only [AIN_SMOOTH, Nat.shiftRight_eq_div_pow, Nat.reduceSub, Nat.reduceAdd, Nat.reducePow]
  refine ⟨hv, ha, ?_, ?_, ?_, fun s ins hc h10 hne => poll_run_buf_le s ins hc h10 hne⟩
  · simp only [K_VOLT]
    exact hq
  · rw [hs]
    rfl
  · intro s hs0
    rw [main_window_volt_mv, hs0, hs, Nat.mod_eq_of_lt hq]
    rfl

/-- Witness for C16: the largest accumulator value, `2^13 * 1023 = 8380416`,
scales to 14526 mV. -/
theorem no_overflow_expected_range_witness :
    K_VOLT * (8380416 >>> (AIN_SMOOTH - 7)) < 2147483648 ∧
    K_AMP * (8380416 >>> (AIN_SMOOTH - 7)) < 2147483648 ∧
    scale_volt 8380416 = 14526 :=
  ⟨(no_overflow_expected_range 8380416 (by decide)).1,
    (no_overflow_expected_range 8380416 (by decide)).2.1,
    (no_overflow_expected_range 8380416 (by decide)).2.2.2.1⟩

/-! ## Mode changes and the store (claim C17) -/

theorem load_eeprom_persisted (s : State) : (load_eeprom s).persisted :=
  ⟨rfl, rfl, rfl, rfl, rfl, rfl, rfl, rfl⟩

theorem changeMode_locked (iapsr : Nat) (s : State) (h : iapsr &&& 0x08 = 0) :
    (changeMode iapsr s).settings0 = s.eeprom OFFSET_SETTINGS ∧
    (changeMode iapsr s).settings1 = s.eeprom (OFFSET_SETTINGS + 1) ∧
    (changeMode iapsr s).settings2 = s.eeprom (OFFSET_SETTINGS + 2) ∧
    (changeMode iapsr s).eeprom = s.eeprom := by
  unfold changeMode
  simp only [save_eeprom_locked _ _ h]
  split_ifs
  · exact ⟨rfl, rfl, rfl, rfl⟩
  · unfold toggle_orient
    split_ifs <;> exact ⟨rfl, rfl, rfl, rfl⟩

theorem changeModeBack_locked (iapsr : Nat) (s : State) (h : iapsr &&& 0x08 = 0) :
    (changeModeBack iapsr s).settings0 = s.eeprom OFFSET_SETTINGS ∧
    (changeModeBack iapsr s).settings1 = s.eeprom (OFFSET_SETTINGS + 1) ∧
    (changeModeBack iapsr s).settings2 = s.eeprom (OFFSET_SETTINGS + 2) ∧
    (changeModeBack iapsr s).eeprom = s.eeprom := by
  unfold changeModeBack
  simp only [save_eeprom_locked _ _ h]
  split_ifs
  · exact ⟨rfl, rfl, rfl, rfl⟩
  · unfold toggle_orient
    split_ifs <;> exact ⟨rfl, rfl, rfl, rfl⟩

/-- C17. After every `changeMode` and every `changeModeBack`, for every prior
state and whatever the unlock status, the settings block, `tick_sec`, `e_mj`,
`cap_mc` and `B_AMP` in memory equal the values held in the EEPROM.  When the
store unlocks, the stored display mode is the new mode; when it does not, the
EEPROM is untouched and the reload puts the stored mode and orientation back
into memory. -/
theorem mode_change_persisted (iapsr : Nat) (s : State) :
    (changeMode iapsr s).persisted ∧ (changeModeBack iapsr s).persisted ∧
    (iapsr &&& 0x08 ≠ 0 →
      (changeMode iapsr s).eeprom (OFFSET_SETTINGS + 2) =
        (if s.settings2 < 3 then s.settings2 + 1 else 0) ∧
      (changeModeBack iapsr s).eeprom (OFFSET_SETTINGS + 2) =
        (if s.settings2 > 0 ∧ s.settings2 < 4 then s.settings2 - 1 else 3)) ∧
    (iapsr &&& 0x08 = 0 →
      (changeMode iapsr s).eeprom = s.eeprom ∧
      (changeMode iapsr s).settings2 = s.eeprom (OFFSET_SETTINGS + 2) ∧
      (changeModeBack iapsr s).eeprom = s.eeprom ∧
      (changeModeBack iapsr s).settings2 = s.eeprom (OFFSET_SETTINGS + 2)) := by
  have p1 : (changeMode iapsr s).persisted := by
    unfold changeMode
    exact load_eeprom_persisted _
  have p2 : (changeModeBack iapsr s).persisted := by
    unfold changeModeBack
    exact load_eeprom_persisted _
  refine ⟨p1, p2, fun hu => ⟨?_, ?_⟩, fun hl => ?_⟩
  · rw [← p1.2.2.2.2.2.1]
    by_cases h : s.settings2 < 3
    · rw [if_pos h]
      exact (changeMode_step iapsr s hu h).1
    · rw [if_neg h]
      exact (changeMode_wrap iapsr s hu h).1
  · rw [← p2.2.2.2.2.2.1]
    by_cases h : s.settings2 > 0 ∧ s.settings2 < 4
    · rw [if_pos h]
      exact (changeModeBack_step iapsr s hu h).1
    · rw [if_neg h]
      exact (changeModeBack_wrap iapsr s hu h).1
  · obtain ⟨_, _, a2, ae⟩ := changeMode_locked iapsr s hl
    obtain ⟨_, _, b2, be⟩ := changeModeBack_locked iapsr s hl
    exact ⟨ae, a2, be, b2⟩

/-- Witness for C17: at `sample_state` (mode 2) an unlocked `changeMode`
stores mode 3, and a locked one leaves memory at the stored byte `0xff`. -/
theorem mode_change_persisted_witness :
    (changeMode 0x08 sample_state).persisted ∧
    (changeMode 0x08 sample_state).eeprom (OFFSET_SETTINGS + 2) = 3 ∧
    (changeMode 0x00 sample_state).persisted ∧
    (changeMode 0x00 sample_state).settings2 = 0xff :=
  ⟨(mode_change_persisted 0x08 sample_state).1,
    ((mode_change_persisted 0x08 sample_state).2.2.1 (by decide)).1,
    (mode_change_persisted 0x00 sample_state).1,
    ((mode_change_persisted 0x00 sample_state).2.2.2 (by decide)).2.1⟩

/-! ## The orientation pair (claim C18) -/

/-- C18. For every settings block, whatever its first two bytes, after
`toggle_orient` bytes 0 and 1 are `(0xa0, 0xc0)` or `(0xa1, 0xc8)` and bytes 2
and 3 are unchanged; on a matched pair the toggle gives the other pair, and
a second toggle gives the first pair back, with the whole state as it was. -/
theorem toggle_orient_pair (s : State) :
    (((toggle_orient s).settings0 = 0xa0 ∧ (toggle_orient s).settings1 = 0xc0) ∨
      ((toggle_orient s).settings0 = 0xa1 ∧ (toggle_orient s).settings1 = 0xc8)) ∧
    (toggle_orient s).settings2 = s.settings2 ∧
    (toggle_orient s).settings3 = s.settings3 ∧
    (s.settings0 = 0xa0 ∧ s.settings1 = 0xc0 →
      (toggle_orient s).settings0 = 0xa1 ∧ (toggle_orient s).settings1 = 0xc8 ∧
      toggle_orient (toggle_orient s) = s) ∧
    (s.settings0 = 0xa1 ∧ s.settings1 = 0xc8 →
      (toggle_orient s).settings0 = 0xa0 ∧ (toggle_orient s).settings1 = 0xc0 ∧
      toggle_orient (toggle_orient s) = s) := by
  refine ⟨?_, ?_, ?_, ?_, ?_⟩
  · unfold toggle_orient
    by_cases h : 0xa0 = s.settings0
    · rw [if_pos h]
      exact Or.inr ⟨rfl, rfl⟩
    · rw [if_neg h]
      exact Or.inl ⟨rfl, rfl⟩
  · unfold toggle_orient
    split_ifs <;> rfl
  · unfold toggle_orient
    split_ifs <;> rfl
  · rintro ⟨h0, h1⟩
    obtain ⟨a, b, c, d0, d1, d2, d3, e, f, g, l, v, am, p, co, t, ee, ac⟩ := s
    simp only at h0 h1
    subst h0 h1
    simp [toggle_orient]
  · rintro ⟨h0, h1⟩
    obtain ⟨a, b, c, d0, d1, d2, d3, e, f, g, l, v, am, p, co, t, ee, ac⟩ := s
    simp only at h0 h1
    subst h0 h1
    simp [toggle_orient]

/-- Witness for C18: a block with the mismatched bytes `(0x12, 0x34)` becomes
`(0xa0, 0xc0)`; the rotated pair of `sample_state` becomes `(0xa0, 0xc0)` and
returns to `(0xa1, 0xc8)` at the second toggle. -/
theorem toggle_orient_pair_witness :
    (toggle_orient { sample_state with settings0 := 0x12, settings1 := 0x34 }).settings0 = 0xa0 ∧
    (toggle_orient { sample_state with settings0 := 0x12, settings1 := 0x34 }).settings1 = 0xc0 ∧
    (toggle_orient sample_state).settings0 = 0xa0 ∧
    toggle_orient (toggle_orient sample_state) = sample_state := by
  have h1 := (toggle_orient_pair
    { sample_state with settings0 := 0x12, settings1 := 0x34 }).1
  have h2 := (toggle_orient_pair sample_state).2.2.2.2 ⟨rfl, rfl⟩
  refine ⟨?_, ?_, h2.1, h2.2.2⟩
  · rcases h1 with h | h
    · exact h.1
    · exact absurd h.1 (by decide)
  · rcases h1 with h | h
    · exact h.2
    · exact absurd h.1 (by decide)

/-! ## The candidates of the calibration (claims C19, C20) -/

theorem poll_run_append_snd (a b : List AdcIn) (s : State) :
    (poll_run (a ++ b) s).2 = (poll_run b (poll_run a s).2).2 := by
  unfold poll_run
  rw [List.foldl_append]
  exact foldl_poll_snd b _ _ _

theorem after_windows_zero (ins : List AdcIn) (s : State) : after_windows 0 ins s = s := by
  unfold after_windows
  rw [Nat.mul_zero, List.take_zero]
  rfl

theorem after_windows_succ (k : Nat) (ins : List AdcIn) (s : State) :
    after_windows (k + 1) ins s =
      (poll_run ((ins.drop (8192 * k)).take 8192) (after_windows k ins s)).2 := by
  unfold after_windows
  rw [Nat.mul_succ, List.take_add, poll_run_append_snd]

theorem after_windows_count (k : Nat) (ins : List AdcIn) (s : State) (hc : s.count = 0)
    (hlen : 8192 * k ≤ ins.length) : (after_windows k ins s).count = 0 := by
  unfold after_windows
  rw [poll_run_count _ _ (by omega), List.length_take, hc]
  omega

/-- One pass of the calibration loop, started at a window boundary. -/
theorem calibrate_loop_step (n k : Nat) (ins : List AdcIn) (c1 c : Int) (s : State)
    (hc : s.count = 0) (hlen : 8192 * (k + 1) ≤ ins.length) :
    calibrate_loop (n + 1) (ins.drop (8192 * k)) c1 c (after_windows k ins s) =
      calibrate_loop n (ins.drop (8192 * (k + 1))) c
        (cal_candidate (after_windows (k + 1) ins s).buf_adc1) (after_windows (k + 1) ins s) := by
  have hck := after_windows_count k ins s hc (by omega)
  have hw := wait_window_returns 8192 (ins.drop (8192 * k)) (after_windows k ins s)
    (by decide) (by omega) (by rw [List.length_drop]; omega)
  rw [List.drop_drop, ← after_windows_succ] at hw
  simp only [calibrate_loop, hw]
  rfl

/-- With four windows of readings at hand from a cycle boundary, `calibrate_a`
returns, and its candidates are those of the third and fourth window. -/
theorem calibrate_a_eq (ins : List AdcIn) (iapsr : Nat) (s : State) (hc : s.count = 0)
    (hlen : 32768 ≤ ins.length) :
    calibrate_a ins iapsr s =
      some (ins.drop 32768,
        calibrate_accept iapsr (cal_candidate (after_windows 3 ins s).buf_adc1)
          (cal_candidate (after_windows 4 ins s).buf_adc1) (after_windows 4 ins s)) := by
  have h0 : calibrate_loop 4 ins 0 s.B_AMP s =
      calibrate_loop 4 (ins.drop (8192 * 0)) 0 s.B_AMP (after_windows 0 ins s) := by
    rw [after_windows_zero]
    rfl
  unfold calibrate_a
  rw [h0, calibrate_loop_step 3 0 ins _ _ s hc (by omega),
    calibrate_loop_step 2 1 ins _ _ s hc (by omega),
    calibrate_loop_step 1 2 ins _ _ s hc (by omega),
    calibrate_loop_step 0 3 ins _ _ s hc (by omega)]
  rfl

theorem cal_candidate_range (raw : Nat) :
    -131072 < cal_candidate raw ∧ cal_candidate raw ≤ 0 := by
  rw [cal_candidate_eq]
  omega

/-- The decision on two computed candidates: the bound test always passes and
no intermediate value leaves the `int32_t` range. -/
theorem calibrate_accept_candidates (iapsr raw' raw : Nat) (s : State) :
    calibrate_accept iapsr (cal_candidate raw') (cal_candidate raw) s =
      if abs (cal_candidate raw - cal_candidate raw') < 10 then
        load_eeprom (save_eeprom iapsr
          { s with B_AMP := Int.tdiv (cal_candidate raw + cal_candidate raw') 2 }).2
      else s := by
  have h1 := cal_candidate_range raw
  have h2 := cal_candidate_range raw'
  unfold calibrate_accept
  rw [wrapI32_id _ (by omega) (by omega), wrapI32_id _ (by omega) (by omega)]
  by_cases h : abs (cal_candidate raw - cal_candidate raw') < 10
  · rw [if_pos ⟨by omega, h⟩, if_pos h]
  · rw [if_neg (fun hh => h hh.2), if_neg h]

/-- C19. For every accumulator value the candidate
`-((K_AMP * (raw >> 6)) >> 15)`, stored in the `int32_t cal_a`, is at most 0
(and above `-2^17`), so the test `cal_a < 200` holds for every candidate the
routine computes and the decision of `calibrate_a` is the settling test
`|cal_a - cal_a1| < 10` alone; the candidates of `calibrate_a` are those of
the third and the fourth window. -/
theorem cal_candidate_nonpos (raw : Nat) :
    cal_candidate raw ≤ 0 ∧ -131072 < cal_candidate raw ∧ cal_candidate raw < 200 ∧
    (∀ (raw' iapsr : Nat) (s : State),
      calibrate_accept iapsr (cal_candidate raw') (cal_candidate raw) s =
        if abs (cal_candidate raw - cal_candidate raw') < 10 then
          load_eeprom (save_eeprom iapsr
            { s with B_AMP := Int.tdiv (cal_candidate raw + cal_candidate raw') 2 }).2
        else s) ∧
    (∀ (ins : List AdcIn) (iapsr : Nat) (s : State), s.count = 0 → 32768 ≤ ins.length →
      calibrate_a ins iapsr s =
        some (ins.drop 32768,
          calibrate_accept iapsr (cal_candidate (after_windows 3 ins s).buf_adc1)
            (cal_candidate (after_windows 4 ins s).buf_adc1) (after_windows 4 ins s))) := by
  have h := cal_candidate_range raw
  exact ⟨h.2, h.1, by omega, fun raw' iapsr s => calibrate_accept_candidates iapsr raw' raw s,
    fun ins iapsr s hc hlen => calibrate_a_eq ins iapsr s hc hlen⟩

/-- Witness for C19: the accumulator 5496448 (5 A) gives the candidate -5116,
and the largest 32-bit accumulator gives -65535. -/
theorem cal_candidate_nonpos_witness :
    cal_candidate 5496448 = -5116 ∧ cal_candidate 5496448 ≤ 0 ∧
    cal_candidate 4294967295 = -65535 ∧ cal_candidate 4294967295 ≤ 0 :=
  ⟨by decide, (cal_candidate_nonpos 5496448).1, by decide,
    (cal_candidate_nonpos 4294967295).1⟩

theorem amp_reading_cal_candidate (r : Nat) : amp_reading r (cal_candidate r) = 0 := by
  apply clamp_amp_zero
  left
  rw [cal_candidate_eq]
  unfold scale_amp toU32
  simp only [AIN_SMOOTH, Nat.shiftRight_eq_div_pow, Nat.reduceSub, Nat.reduceAdd, Nat.reducePow]
  generalize (K_AMP * (r / 64)) % 4294967296 / 32768 = x
  omega

theorem tdiv_double (c : Int) : Int.tdiv (c + c) 2 = c := by
  rw [← two_mul]
  exact Int.mul_tdiv_cancel_left c (by decide)

theorem abs_self_sub (c : Int) : abs (c - c) < 10 := by
  unfold abs
  split_ifs <;> omega

/-- After any whole number of windows of identical readings the current
accumulator holds `8192` times the current sample. -/
theorem after_windows_replicate (k n : Nat) (x : AdcIn) (s : State) (hx : x.WF)
    (hc : s.count = 0) (hk : 0 < k) (hn : 8192 * k ≤ n) :
    (after_windows k (List.replicate n x) s).buf_adc1 = 8192 * x.dr1 := by
  unfold after_windows
  rw [List.take_replicate, Nat.min_eq_left hn]
  have hne : List.replicate (8192 * k) x ≠ [] :=
    List.ne_nil_of_length_pos (by rw [List.length_replicate]; omega)
  have hwf : ∀ inp ∈ List.replicate (8192 * k) x, inp.WF := fun inp h => by
    rw [List.eq_of_mem_replicate h]
    exact hx
  obtain ⟨_, _, hb⟩ := poll_run_inv s hc _ hwf
  rw [(hb hne).2]
  unfold cycle_samples
  rw [List.length_replicate, List.drop_replicate, List.map_replicate, List.sum_replicate,
    smul_eq_mul]
  have e : 8192 * k - (8192 * k - ((8192 * k - 1) % 8192 + 1)) = 8192 := by omega
  rw [e]

/-- C20. Calibration zeroes the reading it was taken at: when the third and
the fourth calibration window leave the same accumulated raw current value
`r` and the save succeeds, `calibrate_a` returns, the two candidates are equal
and pass the acceptance test, `B_AMP` becomes the negated scaled value of `r`,
and the scaled-and-clamped current the main loop computes for that same `r`
is exactly 0. -/
theorem calibration_zeroes_reading (ins : List AdcIn) (iapsr : Nat) (s : State) (r : Nat)
    (hc : s.count = 0) (hlen : 32768 ≤ ins.length) (hunlock : iapsr &&& 0x08 ≠ 0)
    (h3 : (after_windows 3 ins s).buf_adc1 = r) (h4 : (after_windows 4 ins s).buf_adc1 = r) :
    ∃ rest s', calibrate_a ins iapsr s = some (rest, s') ∧
      (cal_candidate r < 200 ∧ abs (cal_candidate r - cal_candidate r) < 10) ∧
      s'.B_AMP = cal_candidate r ∧
      s'.B_AMP = -((((K_AMP * (r / 64)) % 4294967296 / 32768 : Nat) : Int)) ∧
      amp_reading r s'.B_AMP = 0 ∧
      (main_window { s' with buf_adc1 := r }).amp_ma = 0 := by
  have hr := cal_candidate_range r
  have hB : (calibrate_accept iapsr (cal_candidate r) (cal_candidate r)
      (after_windows 4 ins s)).B_AMP = cal_candidate r := by
    rw [calibrate_accept_candidates, if_pos (abs_self_sub _), tdiv_double]
    exact save_load_B_AMP iapsr _ hunlock (by show -2147483648 ≤ cal_candidate r; omega)
      (by show cal_candidate r < 2147483648; omega)
  refine ⟨ins.drop 32768, _, ?_, ⟨by omega, abs_self_sub _⟩, hB, ?_, ?_, ?_⟩
  · rw [calibrate_a_eq ins iapsr s hc hlen, h3, h4]
  · rw [hB, cal_candidate_eq]
  · rw [hB]
    exact amp_reading_cal_candidate r
  · rw [main_window_amp_ma]
    show amp_reading r (calibrate_accept iapsr (cal_candidate r) (cal_candidate r)
      (after_windows 4 ins s)).B_AMP = 0
    rw [hB]
    exact amp_reading_cal_candidate r

/-- Witness for C20: four windows of readings with the current sample 5 from
the reset state, the store unlocked: both last windows accumulate 40960, and
the claim holds at `r = 40960`. -/
theorem calibration_zeroes_reading_witness :
    (after_windows 3 calibration_readings (State.boot (fun _ => 0))).buf_adc1 = 40960 ∧
    (after_windows 4 calibration_readings (State.boot (fun _ => 0))).buf_adc1 = 40960 ∧
    cal_candidate 40960 = -38 ∧
    ∃ rest s', calibrate_a calibration_readings 0x08 (State.boot (fun _ => 0)) = some (rest, s') ∧
      (cal_candidate 40960 < 200 ∧ abs (cal_candidate 40960 - cal_candidate 40960) < 10) ∧
      s'.B_AMP = cal_candidate 40960 ∧
      s'.B_AMP = -((((K_AMP * (40960 / 64)) % 4294967296 / 32768 : Nat) : Int)) ∧
      amp_reading 40960 s'.B_AMP = 0 ∧
      (main_window { s' with buf_adc1 := 40960 }).amp_ma = 0 := by
  have hx : ({ dr0 := 300, dr1 := 5, iapsr := 0x08 } : AdcIn).WF := by decide
  have e3 : (after_windows 3 calibration_readings (State.boot (fun _ => 0))).buf_adc1
      = 40960 :=
    after_windows_replicate 3 32768 _ _ hx rfl (by decide) (by decide)
  have e4 : (after_windows 4 calibration_readings (State.boot (fun _ => 0))).buf_adc1
      = 40960 :=
    after_windows_replicate 4 32768 _ _ hx rfl (by decide) (by decide)
  have hlen : 32768 ≤ calibration_readings.length := by
    rw [calibration_readings, List.length_replicate]
  exact ⟨e3, e4, by decide,
    calibration_zeroes_reading calibration_readings 0x08 (State.boot (fun _ => 0)) 40960 rfl
      hlen (by decide) e3 e4⟩

end FuelGauge
